import Mathlib

/-!
# Verification of the `thesis-abm` SEIRS disinformation-spread engine

Shallow embedding of `layer2_sim` (model/narrative.py, model/archetypes.py,
model/agent.py, model/model.py) into Lean 4.

Modelling conventions:
* Python floats are modelled as exact rationals (`ℚ`).
* The engine's single pseudo-random stream (`self.random`) is modelled by a
  stream `stream : ℕ → ℚ` of uniform draws (one value per `random.random()`
  call, consumed in program order) together with an abstract
  `sample : List Agent → ℕ → List Agent` primitive standing for
  `random.sample`; `SampleOK` states the contract `random.sample` guarantees
  (a duplicate-free selection of the requested size from the pool).
* The Barabási–Albert graph produced by `networkx.barabasi_albert_graph`
  is modelled as an abstract adjacency map `adj : ℕ → List ℕ` over the node
  set `0 .. population-1`; none of the verified claims depends on the
  attachment process itself.
* Python exceptions (`ValueError`, `KeyError`) are modelled with
  `Except String`.
-/

namespace ThesisABM

/-- The four SEIRS compartments (`'S'`, `'E'`, `'I'`, `'R'` strings in the
Python source). -/
inductive SState
  | S
  | E
  | I
  | R
deriving DecidableEq

/-- `np.clip(x, lo, hi)` (computed as `min(hi, max(lo, x))`). -/
def clip (x lo hi : ℚ) : ℚ := min hi (max lo x)

/-- Python `int(q)`: truncation toward zero. -/
def int_trunc (q : ℚ) : ℤ := if 0 ≤ q then ⌊q⌋ else ⌈q⌉

/-- `np.mean` of a list of rationals (sum divided by length;
the engine only applies it to nonempty lists). -/
def listMean (l : List ℚ) : ℚ := l.sum / l.length

/-- `narrative.py` — the `Narrative` dataclass: four parameters of a
disinformation narrative. -/
structure Narrative where
  baseline_transmission : ℚ
  emotional_intensity : ℚ
  identity_weight : ℚ
  initial_seeding : ℚ
deriving DecidableEq

/-- `Narrative.__post_init__`: every field must lie in [0,1]. -/
def Narrative.valid (n : Narrative) : Bool :=
  decide (0 ≤ n.baseline_transmission ∧ n.baseline_transmission ≤ 1 ∧
    0 ≤ n.emotional_intensity ∧ n.emotional_intensity ≤ 1 ∧
    0 ≤ n.identity_weight ∧ n.identity_weight ≤ 1 ∧
    0 ≤ n.initial_seeding ∧ n.initial_seeding ≤ 1)

/-- `Narrative.effective_transmission`: β₀ × (1 + Emo). -/
def Narrative.effective_transmission (n : Narrative) : ℚ :=
  n.baseline_transmission * (1 + n.emotional_intensity)

/-- One entry of the `ARCHETYPES` table in `archetypes.py`
(the descriptive/colour metadata is dropped: the engine never reads it). -/
structure ArchetypeParams where
  nfc : ℚ
  trust : ℚ
  cb : ℚ
  ia : ℚ
  distribution : ℚ
deriving DecidableEq

/-- `archetypes.py` — the `ARCHETYPES` dict, in its (insertion-ordered)
iteration order. -/
def ARCHETYPES : List (String × ArchetypeParams) :=
  [ ("immune", ⟨0.85, 0.80, 0.20, 0.30, 0.20⟩),
    ("superspreader", ⟨0.15, 0.20, 0.85, 0.90, 0.15⟩),
    ("moderate", ⟨0.50, 0.50, 0.50, 0.50, 0.50⟩),
    ("critical_thinker", ⟨0.90, 0.50, 0.25, 0.35, 0.10⟩),
    ("cynical_contrarian", ⟨0.60, 0.15, 0.70, 0.75, 0.05⟩) ]

/-- `archetypes.py` — `validate_archetype_distribution`:
the proportions must sum to 1.0 within an absolute tolerance of 0.001.
A distribution dict is modelled as an association list in insertion order. -/
def validate_archetype_distribution (distribution : List (String × ℚ)) : Bool :=
  decide (|(distribution.map Prod.snd).sum - 1| < 1/1000)

/-- `archetypes.py` — `get_archetype_counts`: per archetype
`int(population * proportion)`, then the rounding residual is pushed onto
the `'moderate'` entry.  When `'moderate'` is absent and the residual is
nonzero, the Python code raises `KeyError` (modelled as `.error`). -/
def get_archetype_counts (population : ℕ) (distribution : List (String × ℚ)) :
    Except String (List (String × ℤ)) :=
  let counts := distribution.map
    (fun p => (p.1, int_trunc ((population : ℚ) * p.2)))
  let total := (counts.map Prod.snd).sum
  if total = population then .ok counts
  else if counts.any (fun p => p.1 == "moderate") then
    .ok (counts.map
      (fun p => if p.1 == "moderate" then (p.1, p.2 + ((population : ℤ) - total)) else p))
  else .error "KeyError: moderate"

/-- `agent.py` — a `DisinformationAgent`: fixed psychographic traits plus the
mutable SEIRS state and history counters. -/
structure Agent where
  unique_id : ℕ
  archetype : String
  need_for_cognition : ℚ
  institutional_trust : ℚ
  confirmation_bias : ℚ
  identity_alignment : ℚ
  state : SState
  next_state : Option SState
  infection_count : ℕ
  recovery_count : ℕ
  relapse_count : ℕ
  time_in_I : ℕ
  current_I_duration : ℕ
deriving DecidableEq

/-- `DisinformationAgent.__init__`: fresh agent, state `'S'`, all counters 0. -/
def mkAgent (uid : ℕ) (name : String) (p : ArchetypeParams) : Agent :=
  { unique_id := uid
    archetype := name
    need_for_cognition := p.nfc
    institutional_trust := p.trust
    confirmation_bias := p.cb
    identity_alignment := p.ia
    state := .S
    next_state := none
    infection_count := 0
    recovery_count := 0
    relapse_count := 0
    time_in_I := 0
    current_I_duration := 0 }

/-- `agent.py` — `_calculate_alpha`: S→E exposure probability per
infected contact. -/
def calculate_alpha (a : Agent) (narrative : Narrative) : ℚ :=
  let base := narrative.effective_transmission
  let effect :=
    -0.6 * (a.need_for_cognition - 0.5) +
    0.0 * (a.institutional_trust - 0.5) +
    0.4 * (a.confirmation_bias - 0.5) +
    0.3 * (a.identity_alignment - 0.5) * narrative.identity_weight
  let susceptibility := clip (1 + effect) 0.1 2.0
  clip (base * susceptibility) 0 1

/-- `agent.py` — `_calculate_sigma`: E→I adoption probability
(`sigma_base` is read from the owning model). -/
def calculate_sigma (a : Agent) (narrative : Narrative) (sigma_base : ℚ) : ℚ :=
  let effect :=
    -0.7 * (a.need_for_cognition - 0.5) +
    -0.5 * (a.institutional_trust - 0.5) +
    0.6 * (a.confirmation_bias - 0.5) +
    1.0 * (a.identity_alignment - 0.5) * narrative.identity_weight
  let multiplier := clip (1 + effect) 0.1 3.0
  clip (sigma_base * multiplier) 0 1

/-- `agent.py` — `_calculate_gamma`: I→R correction probability. -/
def calculate_gamma (a : Agent) (narrative : Narrative) (gamma_base : ℚ) : ℚ :=
  let nfc_boost := a.need_for_cognition * 0.8
  let trust_boost := a.institutional_trust * 0.6
  let cb_penalty := a.confirmation_bias * 0.5
  let ia_penalty := a.identity_alignment * narrative.identity_weight * 0.8
  let multiplier := (1 + nfc_boost + trust_boost) / (1 + cb_penalty + ia_penalty)
  clip (gamma_base * multiplier) 0 1

/-- `agent.py` — `_calculate_omega`: R→S relapse probability,
capped at 0.2 per timestep. -/
def calculate_omega (a : Agent) (narrative : Narrative) (omega_base : ℚ) : ℚ :=
  let trust_penalty := (1 - a.institutional_trust) * 0.6
  let ia_amplification := a.identity_alignment * narrative.identity_weight * 1.0
  let nfc_protection := a.need_for_cognition * 0.4
  let multiplier := (1 + trust_penalty + ia_amplification) / (1 + nfc_protection)
  clip (omega_base * multiplier) 0 0.2

/-- One row of the Mesa `DataCollector` (the model reporters configured in
`_setup_datacollector`). -/
structure Row where
  susceptible : ℕ
  exposed : ℕ
  infected : ℕ
  recovered : ℕ
  cumulative_infected : ℕ
  infected_immune : ℕ
  infected_superspreader : ℕ
  infected_moderate : ℕ
  infected_critical : ℕ
  infected_cynical : ℕ
deriving DecidableEq

/-- The all-zero row, used only as the default for `getLastD` (the collector
always holds at least the construction row). -/
def zeroRow : Row := ⟨0, 0, 0, 0, 0, 0, 0, 0, 0, 0⟩

/-- `model.py` — the `DisinformationModel` state.  `adj` is the (read-only)
Barabási–Albert graph as an adjacency map over nodes `0 .. population-1`;
`stream`/`rng_idx` model the engine's single pseudo-random stream, `rng_idx`
being the index of the next `random.random()` draw. -/
structure Model where
  narrative : Narrative
  population : ℕ
  m_edges : ℕ
  seeding_strategy : String
  sigma_base : ℚ
  gamma_base : ℚ
  omega_base : ℚ
  cumulative_infected : ℕ
  current_step : ℕ
  agents : List Agent
  adj : ℕ → List ℕ
  stream : ℕ → ℚ
  rng_idx : ℕ
  rows : List Row

/-- `model.py` — `_count_state`: number of agents currently in `s`. -/
def count_state (agents : List Agent) (s : SState) : ℕ :=
  agents.countP (fun a => a.state == s)

/-- `model.py` — `_count_infected_archetype`. -/
def count_infected_archetype (agents : List Agent) (name : String) : ℕ :=
  agents.countP (fun a => a.state == SState.I && a.archetype == name)

/-- One `datacollector.collect(self)` call: append the current reporter row. -/
def collect (m : Model) : Model :=
  { m with rows := m.rows ++
      [{ susceptible := count_state m.agents .S
         exposed := count_state m.agents .E
         infected := count_state m.agents .I
         recovered := count_state m.agents .R
         cumulative_infected := m.cumulative_infected
         infected_immune := count_infected_archetype m.agents "immune"
         infected_superspreader := count_infected_archetype m.agents "superspreader"
         infected_moderate := count_infected_archetype m.agents "moderate"
         infected_critical := count_infected_archetype m.agents "critical_thinker"
         infected_cynical := count_infected_archetype m.agents "cynical_contrarian" }] }

/-- `agent.py` — `_get_infected_neighbors`: ids of graph neighbours whose
agent is currently in state `'I'` (ids with no matching agent are skipped). -/
def infected_neighbors (m : Model) (a : Agent) : List ℕ :=
  (m.adj a.unique_id).filter
    (fun nid =>
      match m.agents.find? (fun b => b.unique_id == nid) with
      | some b => b.state == SState.I
      | none => false)

/-- Whether `agent.step()` consumes a `random.random()` draw: every state
does except a susceptible agent with no infected neighbours
(`_check_exposure` returns before drawing). -/
def consumes_draw (m : Model) (a : Agent) : Bool :=
  match a.state with
  | .S => !(infected_neighbors m a).isEmpty
  | _ => true

/-- `agent.py` — `step()` (compute phase): the candidate next state of `a`
given the frozen population snapshot `m` and the uniform draw `u`. -/
def agent_compute (m : Model) (a : Agent) (u : ℚ) : SState :=
  match a.state with
  | .S =>
    let k := (infected_neighbors m a).length
    if k = 0 then .S
    else
      let alpha := calculate_alpha a m.narrative
      let p_exposure := 1 - (1 - alpha) ^ k
      if u < p_exposure then .E else .S
  | .E => if u < calculate_sigma a m.narrative m.sigma_base then .I else .E
  | .I => if u < calculate_gamma a m.narrative m.gamma_base then .R else .I
  | .R => if u < calculate_omega a m.narrative m.omega_base then .S else .R

/-- Compute phase over the agent list: each agent gets
`next_state := some (candidate)`, consuming one stream draw when its check
draws.  `m` is the frozen start-of-step snapshot. -/
def compute_list (m : Model) : List Agent → ℕ → List Agent × ℕ
  | [], idx => ([], idx)
  | a :: rest, idx =>
    let c := consumes_draw m a
    let u := if c then m.stream idx else 0
    let a' := { a with next_state := some (agent_compute m a u) }
    let idx' := if c then idx + 1 else idx
    let (tail, idxF) := compute_list m rest idx'
    (a' :: tail, idxF)

/-- `agent.py` — `advance()` (commit phase) for one agent, threading the
model's `cumulative_infected` counter. -/
def agent_advance (a : Agent) (cum : ℕ) : Agent × ℕ :=
  match a.next_state with
  | none => (a, cum)
  | some ns =>
    let old := a.state
    let a1 := { a with state := ns, next_state := none }
    let step1 : Agent × ℕ :=
      if old ≠ SState.I ∧ ns = SState.I then
        ({ a1 with infection_count := a1.infection_count + 1,
                   current_I_duration := 0 }, cum + 1)
      else (a1, cum)
    let a2 := step1.1
    let a3 :=
      if old = SState.I ∧ ns = SState.R then
        { a2 with recovery_count := a2.recovery_count + 1 }
      else a2
    let a4 :=
      if old = SState.R ∧ ns = SState.S then
        { a3 with relapse_count := a3.relapse_count + 1 }
      else a3
    let a5 :=
      if ns = SState.I then
        { a4 with time_in_I := a4.time_in_I + 1,
                  current_I_duration := a4.current_I_duration + 1 }
      else a4
    (a5, step1.2)

/-- Commit phase over the agent list, threading `cumulative_infected`. -/
def advance_list : List Agent → ℕ → List Agent × ℕ
  | [], cum => ([], cum)
  | a :: rest, cum =>
    let (a', cum') := agent_advance a cum
    let (tail, cumF) := advance_list rest cum'
    (a' :: tail, cumF)

/-- `model.py` — `step()`: compute phase over all agents, commit phase over
all agents, collect one data row, increment the step counter. -/
def Model.step (m : Model) : Model :=
  let computed := compute_list m m.agents m.rng_idx
  let m1 := { m with agents := computed.1, rng_idx := computed.2 }
  let advanced := advance_list m1.agents m1.cumulative_infected
  let m2 := { m1 with agents := advanced.1, cumulative_infected := advanced.2 }
  let m3 := collect m2
  { m3 with current_step := m3.current_step + 1 }

/-- `model.py` — `_epidemic_ended`: no agents left in `'E'` or `'I'`. -/
def epidemic_ended (m : Model) : Bool :=
  count_state m.agents .E == 0 && count_state m.agents .I == 0

/-- `model.py` — `run(max_steps)`: step up to `max_steps` times, breaking
after the first step at whose end the epidemic has ended. -/
def Model.run (m : Model) : ℕ → Model
  | 0 => m
  | n + 1 =>
    let m' := m.step
    if epidemic_ended m' then m' else m'.run n

/-- `m.step` iterated `n` times (specification helper for `run`). -/
def stepIter (m : Model) : ℕ → Model
  | 0 => m
  | n + 1 => stepIter m.step n

/-- `model.py` — `_create_agents`: instantiate agents archetype by archetype
in the iteration order of the counts dict, with sequential ids starting at 0.
Looking up an unknown archetype name in `ARCHETYPES` raises `KeyError`;
a negative count produces no agents (`range(count)` is empty). -/
def create_agents : List (String × ℤ) → ℕ → Except String (List Agent)
  | [], _ => .ok []
  | (name, c) :: rest, start =>
    match ARCHETYPES.find? (fun q => q.1 == name) with
    | none => .error ("KeyError: " ++ name)
    | some q =>
      let these := (List.range c.toNat).map (fun i => mkAgent (start + i) name q.2)
      match create_agents rest (start + c.toNat) with
      | .ok tail => .ok (these ++ tail)
      | .error e => .error e

/-- The computed seed count of `_seed_initial_infections`:
`int(population * initial_seeding)`, forced up to 1 when it is 0. -/
def n_seed_of (m : Model) : ℕ :=
  let n0 := (int_trunc ((m.population : ℚ) * m.narrative.initial_seeding)).toNat
  if n0 = 0 then 1 else n0

/-- Mark every agent of `seed_agents` as `'I'` and count each toward
`cumulative_infected` (the final loop of `_seed_initial_infections`; agents
are identified by their unique id). -/
def apply_seeds (m : Model) (seed_agents : List Agent) : Model :=
  { m with
    agents := m.agents.map
      (fun a =>
        if seed_agents.any (fun b => b.unique_id == a.unique_id) then
          { a with state := SState.I }
        else a)
    cumulative_infected := m.cumulative_infected + seed_agents.length }

/-- `model.py` — `_seed_initial_infections`; `sample` models
`self.random.sample`.  `hub_targeted` ranks the graph nodes by degree
descending (Python's `sorted` is stable, so ties keep ascending node order);
`archetype_proportional` allocates `int(n_seed * static_share)` seeds per
archetype from the `ARCHETYPES` table. -/
def seed_initial_infections (m : Model)
    (sample : List Agent → ℕ → List Agent) : Except String Model :=
  let n_seed := n_seed_of m
  let agent_list := m.agents
  if m.seeding_strategy == "random" then
    .ok (apply_seeds m (sample agent_list n_seed))
  else if m.seeding_strategy == "hub_targeted" then
    let degrees := (List.range m.population).map (fun n => (n, (m.adj n).length))
    let sorted_nodes := degrees.mergeSort (fun x y => y.2 ≤ x.2)
    let seed_ids := (sorted_nodes.take n_seed).map Prod.fst
    .ok (apply_seeds m (agent_list.filter (fun a => seed_ids.contains a.unique_id)))
  else if m.seeding_strategy == "archetype_proportional" then
    let seed_agents := ARCHETYPES.foldl
      (fun acc q =>
        let archetype_agents := agent_list.filter (fun a => a.archetype == q.1)
        let n_archetype_seed := (int_trunc ((n_seed : ℚ) * q.2.distribution)).toNat
        if 0 < n_archetype_seed ∧ archetype_agents ≠ [] then
          acc ++ sample archetype_agents (min n_archetype_seed archetype_agents.length)
        else acc)
      []
    .ok (apply_seeds m seed_agents)
  else .error ("Unknown seeding strategy: " ++ m.seeding_strategy)

/-- The construction inputs of `DisinformationModel.__init__`
(the narrative dict is paired into a `Narrative`). -/
structure Config where
  narrative : Narrative
  archetype_dist : List (String × ℚ)
  population : ℕ
  m_edges : ℕ
  seeding_strategy : String
  sigma_base : ℚ
  gamma_base : ℚ
  omega_base : ℚ

/-- `model.py` — `DisinformationModel.__init__`: validate the archetype
distribution, validate the narrative, build the network (the
Barabási–Albert precondition `1 ≤ m < n` is enforced by `networkx`),
create the agents, seed initial infections, and collect the first data row.
`adj` stands for the generated graph, `sample`/`stream` for the engine's
seeded random stream. -/
def mkDisinformationModel (cfg : Config) (adj : ℕ → List ℕ)
    (sample : List Agent → ℕ → List Agent) (stream : ℕ → ℚ) :
    Except String Model :=
  if ¬ validate_archetype_distribution cfg.archetype_dist then
    .error "Archetype distribution must sum to 1.0"
  else if ¬ cfg.narrative.valid then
    .error "narrative parameter must be in [0, 1]"
  else if ¬ (1 ≤ cfg.m_edges ∧ cfg.m_edges < cfg.population) then
    .error "Barabasi-Albert network must have 1 <= m < n"
  else
    match get_archetype_counts cfg.population cfg.archetype_dist with
    | .error e => .error e
    | .ok counts =>
      match create_agents counts 0 with
      | .error e => .error e
      | .ok agents =>
        let m0 : Model :=
          { narrative := cfg.narrative
            population := cfg.population
            m_edges := cfg.m_edges
            seeding_strategy := cfg.seeding_strategy
            sigma_base := cfg.sigma_base
            gamma_base := cfg.gamma_base
            omega_base := cfg.omega_base
            cumulative_infected := 0
            current_step := 0
            agents := agents
            adj := adj
            stream := stream
            rng_idx := 0
            rows := [] }
        match seed_initial_infections m0 sample with
        | .error e => .error e
        | .ok m1 => .ok (collect m1)

/-- Contract of Python's `random.sample(pool, k)` for `k ≤ len(pool)` on a
duplicate-free pool: a duplicate-free selection of exactly `k` elements of
the pool (its order is up to the stream). -/
def SampleOK (sample : List Agent → ℕ → List Agent) : Prop :=
  ∀ pool k, pool.Nodup → k ≤ pool.length →
    (sample pool k).length = k ∧ (sample pool k).Nodup ∧
    ∀ a ∈ sample pool k, a ∈ pool

/-- A concrete sampler satisfying `SampleOK`: take the first `k` agents. -/
def sampleTake (pool : List Agent) (k : ℕ) : List Agent := pool.take k

/-- The result record of `get_peak_metrics`. -/
structure PeakMetrics where
  max_infected : ℕ
  max_infected_pct : ℚ
  time_to_peak : ℕ
  attack_rate : ℚ
deriving DecidableEq

/-- `model.py` — `get_peak_metrics`: peak of the `Infected` column, its
first index (`idxmax`), and `attack_rate` = last row's
`Cumulative_Infected` divided by the population. -/
def get_peak_metrics (m : Model) : PeakMetrics :=
  let infs := m.rows.map Row.infected
  let max_infected := infs.foldr max 0
  { max_infected := max_infected
    max_infected_pct := (max_infected : ℚ) / (m.population : ℚ)
    time_to_peak := infs.findIdx (fun x => x == max_infected)
    attack_rate :=
      (((m.rows.getLastD zeroRow).cumulative_infected : ℚ)) / (m.population : ℚ) }

/-- An IEEE-style extended value, enough to mirror the `np.inf` sentinel
that `calculate_R0` uses for an infinite infectious period. -/
inductive ExtQ
  | val (q : ℚ)
  | inf
  | ninf
  | nan
deriving DecidableEq

/-- Multiplication of a finite rational by an extended value
(IEEE semantics: `q * inf` is `inf`, `-inf` or `nan` by the sign of `q`). -/
def ExtQ.smul (c : ℚ) : ExtQ → ExtQ
  | .val q => .val (c * q)
  | .inf => if 0 < c then .inf else if c < 0 then .ninf else .nan
  | .ninf => if 0 < c then .ninf else if c < 0 then .inf else .nan
  | .nan => .nan

/-- The components dict returned by `calculate_R0`. -/
structure R0Components where
  mean_alpha : ℚ
  mean_sigma : ℚ
  mean_gamma : ℚ
  mean_degree : ℚ
  infectious_period : ExtQ
deriving DecidableEq

/-- Mean of the per-agent correction rates γ (the `mean_gamma` of
`calculate_R0`). -/
def mean_gamma_of (m : Model) : ℚ :=
  listMean (m.agents.map (fun a => calculate_gamma a m.narrative m.gamma_base))

/-- `model.py` — `calculate_R0`: mean-field estimate
`R₀ = ⟨α⟩ ⟨σ⟩ ⟨k⟩ (1/⟨γ⟩)` over the current snapshot; a zero mean γ yields
the infinite-period sentinel instead of an error. -/
def calculate_R0 (m : Model) : ExtQ × R0Components :=
  let mean_alpha := listMean (m.agents.map (fun a => calculate_alpha a m.narrative))
  let mean_sigma := listMean (m.agents.map (fun a => calculate_sigma a m.narrative m.sigma_base))
  let mean_gamma := mean_gamma_of m
  let mean_degree := listMean ((List.range m.population).map (fun n => ((m.adj n).length : ℚ)))
  let infectious_period : ExtQ :=
    if 0 < mean_gamma then .val (1 / mean_gamma) else .inf
  (ExtQ.smul (mean_alpha * mean_sigma * mean_degree) infectious_period,
   { mean_alpha := mean_alpha
     mean_sigma := mean_sigma
     mean_gamma := mean_gamma
     mean_degree := mean_degree
     infectious_period := infectious_period })

/-- One archetype's entry of the profile-stratified metrics mapping. -/
structure ProfileMetrics where
  total_agents : ℕ
  ever_infected : ℕ
  attack_rate : ℚ
  mean_time_in_I : ℚ
  total_infections : ℕ
  total_recoveries : ℕ
  correction_rate : ℚ
  mean_relapses : ℚ
deriving DecidableEq

/-- Modelled from the spec: `get_profile_stratified_metrics` is invoked on
the model by the export layer (`analysis/export.py`,
`generate_layer2_results.py`) but its definition is absent from the model
source; per the spec it returns, for each archetype, the total agent count,
the count of agents ever infected (`infection_count > 0`), the attack rate
(ever-infected/total), the mean `time_in_I`, the total infections, the
total recoveries, the correction rate (recoveries/infections, 0 when there
are no infections), and the mean relapses per agent. -/
def get_profile_stratified_metrics (m : Model) : List (String × ProfileMetrics) :=
  ARCHETYPES.map
    (fun q =>
      let pool := m.agents.filter (fun a => a.archetype == q.1)
      let total := pool.length
      let ever := pool.countP (fun a => 0 < a.infection_count)
      let infections := (pool.map Agent.infection_count).sum
      let recoveries := (pool.map Agent.recovery_count).sum
      (q.1,
       { total_agents := total
         ever_infected := ever
         attack_rate := (ever : ℚ) / (total : ℚ)
         mean_time_in_I := listMean (pool.map (fun a => (a.time_in_I : ℚ)))
         total_infections := infections
         total_recoveries := recoveries
         correction_rate :=
           if infections = 0 then 0 else (recoveries : ℚ) / (infections : ℚ)
         mean_relapses := listMean (pool.map (fun a => (a.relapse_count : ℚ))) }))

/-!
## Concrete instances

Concrete configurations, graphs and streams used to witness the theorems
below and to exhibit counterexamples.  Each `Except`-extraction falls back
to `junkModel`; the accompanying theorems prove the `.ok` branch applies.
-/

/-- Placeholder model for the unreachable `.error` branch of the concrete
extractions below. -/
def junkModel : Model :=
  { narrative := ⟨0, 0, 0, 0⟩
    population := 0, m_edges := 0, seeding_strategy := ""
    sigma_base := 0, gamma_base := 0, omega_base := 0
    cumulative_infected := 0, current_step := 0, agents := []
    adj := fun _ => [], stream := fun _ => 0, rng_idx := 0, rows := [] }

/-- Star graph on `n` nodes (node 0 adjacent to all others): a realization
of Barabási–Albert growth with `m = 1` where every newcomer attaches to
node 0. -/
def starAdj (n : ℕ) : ℕ → List ℕ :=
  fun v => if v = 0 then List.range' 1 (n - 1) else [0]

/-- A draw stream on which every `random.random()` call returns 0
(so every transition whose probability is positive fires). -/
def zeroStream : ℕ → ℚ := fun _ => 0

/-- A 2-agent configuration (all-`moderate`, `random` seeding, all base
rates 1, maximally transmissive narrative) under which every S→E→I→R→S
transition fires deterministically on the all-zeros stream. -/
def cfgSmall : Config :=
  { narrative := ⟨1, 1, 0, 0⟩
    archetype_dist := [("moderate", 1)]
    population := 2, m_edges := 1, seeding_strategy := "random"
    sigma_base := 1, gamma_base := 1, omega_base := 1 }

/-- The 2-agent model built from `cfgSmall`. -/
def mSmall : Model :=
  match mkDisinformationModel cfgSmall (starAdj 2) sampleTake zeroStream with
  | .ok m => m
  | .error _ => junkModel

/-- A configuration whose archetype shares sum to `1 + 1/1024` — inside the
`validate_archetype_distribution` tolerance of `0.001` — chosen so that the
truncated counts total `population + 1` and the rounding adjustment drives
the `'moderate'` count to `-1`. -/
def cfgOver : Config :=
  { narrative := ⟨0, 0, 0, 0⟩
    archetype_dist := [("immune", 1/2), ("superspreader", 513/1024), ("moderate", 0)]
    population := 1024, m_edges := 1, seeding_strategy := "random"
    sigma_base := 1, gamma_base := 1, omega_base := 1 }

/-- The model built from `cfgOver`: it instantiates 1025 agents against a
declared population of 1024. -/
def mOver : Model :=
  match mkDisinformationModel cfgOver (starAdj 1024) sampleTake zeroStream with
  | .ok m => m
  | .error _ => junkModel

/-- A 5-agent all-`moderate` configuration with `archetype_proportional`
seeding and a computed seed count of 1: every per-archetype allocation
`int(1 * static_share)` truncates to 0. -/
def cfgProp : Config :=
  { narrative := ⟨0, 0, 0, 0⟩
    archetype_dist := [("moderate", 1)]
    population := 5, m_edges := 1, seeding_strategy := "archetype_proportional"
    sigma_base := 1, gamma_base := 1, omega_base := 1 }

/-- The model built from `cfgProp`: no agent is seeded. -/
def mProp : Model :=
  match mkDisinformationModel cfgProp (starAdj 5) sampleTake zeroStream with
  | .ok m => m
  | .error _ => junkModel

/-- A 10-agent configuration with `initial_seeding = 0.17`, so that
`population * p₀ = 1.7`: truncation gives 1 seed where rounding would
give 2. -/
def cfgRound : Config :=
  { narrative := ⟨0, 0, 0, 17/100⟩
    archetype_dist := [("moderate", 1)]
    population := 10, m_edges := 1, seeding_strategy := "random"
    sigma_base := 1, gamma_base := 1, omega_base := 1 }

/-- The model built from `cfgRound`. -/
def mRound : Model :=
  match mkDisinformationModel cfgRound (starAdj 10) sampleTake zeroStream with
  | .ok m => m
  | .error _ => junkModel

/-- A 2-agent configuration with `initial_seeding = 1/2`
(`n_seed = int(2 * 1/2) = 1`). -/
def cfgHalf : Config :=
  { narrative := ⟨1, 1, 0, 1/2⟩
    archetype_dist := [("moderate", 1)]
    population := 2, m_edges := 1, seeding_strategy := "random"
    sigma_base := 1, gamma_base := 1, omega_base := 1 }

/-- The model built from `cfgHalf`. -/
def mHalf : Model :=
  match mkDisinformationModel cfgHalf (starAdj 2) sampleTake zeroStream with
  | .ok m => m
  | .error _ => junkModel

/-- A concrete exposed agent whose computed candidate state is `'I'`
(mid-step snapshot, between compute and commit). -/
def agentEtoI : Agent :=
  { mkAgent 0 "moderate" ⟨0.5, 0.5, 0.5, 0.5, 0.5⟩ with
    state := SState.E, next_state := some SState.I }

/-- A concrete infected agent whose computed candidate state is `'I'`
(it remains infected this step). -/
def agentItoI : Agent :=
  { mkAgent 1 "moderate" ⟨0.5, 0.5, 0.5, 0.5, 0.5⟩ with
    state := SState.I, next_state := some SState.I, time_in_I := 3,
    current_I_duration := 3, infection_count := 1 }

/-!
## Helper lemmas
-/

theorem count_state_partition (l : List Agent) :
    count_state l .S + count_state l .E + count_state l .I + count_state l .R
      = l.length := by
  induction l with
  | nil => rfl
  | cons a rest ih =>
    unfold count_state at ih ⊢
    cases h : a.state <;> simp [List.countP_cons, h] <;> omega

/-!
## C4 — commit-phase bookkeeping
-/

/-- **C4** (amended).  During the commit phase, for an agent with a pending
candidate state `ns`: entering I (old state not I, new state I) increments
the model's `cumulative_infected` and the agent's `infection_count`;
an I→R transition increments `recovery_count`; an R→S transition increments
`relapse_count`; and `time_in_I` and `current_I_duration` are incremented
exactly when the committed state is I — fresh entry included, so that on
entry `current_I_duration` is reset and then incremented, ending at 1. -/
theorem advance_bookkeeping (a : Agent) (cum : ℕ) (ns : SState)
    (h : a.next_state = some ns) :
    (agent_advance a cum).1.state = ns ∧
    (agent_advance a cum).1.next_state = none ∧
    (agent_advance a cum).1.infection_count
      = a.infection_count + (if a.state ≠ SState.I ∧ ns = SState.I then 1 else 0) ∧
    (agent_advance a cum).2
      = cum + (if a.state ≠ SState.I ∧ ns = SState.I then 1 else 0) ∧
    (agent_advance a cum).1.recovery_count
      = a.recovery_count + (if a.state = SState.I ∧ ns = SState.R then 1 else 0) ∧
    (agent_advance a cum).1.relapse_count
      = a.relapse_count + (if a.state = SState.R ∧ ns = SState.S then 1 else 0) ∧
    (agent_advance a cum).1.time_in_I
      = a.time_in_I + (if ns = SState.I then 1 else 0) ∧
    (agent_advance a cum).1.current_I_duration
      = (if ns = SState.I then
          (if a.state = SState.I then a.current_I_duration + 1 else 1)
         else a.current_I_duration) := by
  cases hs : a.state <;> cases ns <;>
    simp [agent_advance, h, hs]

/-- Witness for `advance_bookkeeping`: an infected agent that stays
infected keeps its counters except `time_in_I`/`current_I_duration`,
which advance from 3 to 4. -/
theorem advance_bookkeeping_witness :
    agentItoI.next_state = some SState.I ∧
    (agent_advance agentItoI 7).1.time_in_I = 4 ∧
    (agent_advance agentItoI 7).1.current_I_duration = 4 ∧
    (agent_advance agentItoI 7).2 = 7 := by
  refine ⟨rfl, ?_, ?_, ?_⟩
  · have h := advance_bookkeeping agentItoI 7 SState.I rfl
    rw [h.2.2.2.2.2.2.1]
    with_unfolding_all rfl
  · have h := advance_bookkeeping agentItoI 7 SState.I rfl
    rw [h.2.2.2.2.2.2.2]
    with_unfolding_all rfl
  · have h := advance_bookkeeping agentItoI 7 SState.I rfl
    rw [h.2.2.2.1]
    with_unfolding_all rfl

/-- **C4** counterexample to the claim as stated: an agent entering I from
E (previous state *not* I) nevertheless has its `time_in_I` incremented
(from 0 to 1), refuting "`time_in_I` … incremented exactly when the agent
was in I and remains in I"; its `current_I_duration` ends at 1, not 0. -/
theorem advance_time_in_I_on_entry :
    agentEtoI.state = SState.E ∧
    agentEtoI.time_in_I = 0 ∧
    (agent_advance agentEtoI 0).1.time_in_I = 1 ∧
    (agent_advance agentEtoI 0).1.current_I_duration = 1 := by
  refine ⟨rfl, rfl, ?_, ?_⟩ <;> with_unfolding_all rfl

/-!
## C2 — archetype count allocation
-/

theorem adjust_map_id (l : List (String × ℤ)) (δ : ℤ)
    (h : ∀ p ∈ l, (p.1 == "moderate") = false) :
    l.map (fun p => if p.1 == "moderate" then (p.1, p.2 + δ) else p) = l := by
  induction l with
  | nil => rfl
  | cons p rest ih =>
    have hp := h p (List.mem_cons_self ..)
    simp only [List.map_cons]
    rw [if_neg (by simp [hp]), ih (fun q hq => h q (List.mem_cons_of_mem _ hq))]

theorem adjust_map_sum (l : List (String × ℤ)) (δ : ℤ)
    (hnodup : (l.map Prod.fst).Nodup)
    (hmem : l.any (fun p => p.1 == "moderate") = true) :
    ((l.map (fun p => if p.1 == "moderate" then (p.1, p.2 + δ) else p)).map
      Prod.snd).sum = (l.map Prod.snd).sum + δ := by
  induction l with
  | nil => simp at hmem
  | cons p rest ih =>
    simp only [List.map_cons, List.nodup_cons] at hnodup
    by_cases hp : (p.1 == "moderate") = true
    · have hpmod : p.1 = "moderate" := beq_iff_eq.mp hp
      have hrest : ∀ q ∈ rest, (q.1 == "moderate") = false := by
        intro q hq
        have hne : q.1 ≠ "moderate" := by
          intro hcontra
          apply hnodup.1
          rw [hpmod, ← hcontra]
          exact List.mem_map_of_mem Prod.fst hq
        simp [hne]
      simp only [List.map_cons, if_pos hp, adjust_map_id rest δ hrest,
        List.sum_cons]
      omega
    · have hp' : (p.1 == "moderate") = false := by simpa using hp
      have hmem' : rest.any (fun q => q.1 == "moderate") = true := by
        simpa [List.any_cons, hp'] using hmem
      simp only [List.map_cons, hp', Bool.false_eq_true, if_false,
        List.sum_cons, ih hnodup.2 hmem']
      omega

theorem adjust_map_fst (l : List (String × ℤ)) (δ : ℤ) :
    ((l.map (fun p => if p.1 == "moderate" then (p.1, p.2 + δ) else p)).map
      Prod.fst) = l.map Prod.fst := by
  induction l with
  | nil => rfl
  | cons p rest ih =>
    by_cases hp : (p.1 == "moderate") = true <;>
      simp_all

theorem archetype_counts_ok_facts (population : ℕ) (dist : List (String × ℚ))
    (counts : List (String × ℤ))
    (hnodup : (dist.map Prod.fst).Nodup)
    (h : get_archetype_counts population dist = .ok counts) :
    (counts.map Prod.snd).sum = population ∧
    counts.map Prod.fst = dist.map Prod.fst ∧
    (∀ p ∈ dist, p.1 ≠ "moderate" →
      (p.1, int_trunc ((population : ℚ) * p.2)) ∈ counts) ∧
    (∀ p ∈ dist, p.1 = "moderate" →
      (p.1, int_trunc ((population : ℚ) * p.2) +
        ((population : ℤ) -
          (dist.map (fun q => int_trunc ((population : ℚ) * q.2))).sum)) ∈
        counts) := by
  have hfst :
      (dist.map (fun p => (p.1, int_trunc ((population : ℚ) * p.2)))).map
        Prod.fst = dist.map Prod.fst := by
    rw [List.map_map]; rfl
  have hsnd :
      (dist.map (fun p => (p.1, int_trunc ((population : ℚ) * p.2)))).map
        Prod.snd = dist.map (fun q => int_trunc ((population : ℚ) * q.2)) := by
    rw [List.map_map]; rfl
  simp only [get_archetype_counts] at h
  split at h
  next htot =>
    -- no residual: the truncated counts already total the population
    cases h
    refine ⟨by rw [hsnd] at htot ⊢; exact htot, hfst, ?_, ?_⟩
    · intro p hp _
      exact List.mem_map_of_mem _ hp
    · intro p hp _
      rw [hsnd] at htot
      rw [htot]
      simpa using List.mem_map_of_mem
        (fun p => (p.1, int_trunc ((population : ℚ) * p.2))) hp
  next htot =>
    split at h
    next hany =>
      -- residual pushed onto the (unique) 'moderate' entry
      cases h
      have hnodup' :
          ((dist.map (fun p => (p.1, int_trunc ((population : ℚ) * p.2)))).map
            Prod.fst).Nodup := by rw [hfst]; exact hnodup
      refine ⟨?_, ?_, ?_, ?_⟩
      · rw [adjust_map_sum _ _ hnodup' hany, hsnd]
        omega
      · rw [adjust_map_fst, hfst]
      · intro p hp hne
        have hbase : (p.1, int_trunc ((population : ℚ) * p.2)) ∈
            dist.map (fun p => (p.1, int_trunc ((population : ℚ) * p.2))) :=
          List.mem_map_of_mem _ hp
        have := List.mem_map_of_mem
          (fun p => if p.1 == "moderate" then
            (p.1, p.2 + ((population : ℤ) -
              ((dist.map (fun p => (p.1, int_trunc ((population : ℚ) * p.2)))).map
                Prod.snd).sum)) else p) hbase
        simpa [hne, hsnd] using this
      · intro p hp hmod
        have hbase : (p.1, int_trunc ((population : ℚ) * p.2)) ∈
            dist.map (fun p => (p.1, int_trunc ((population : ℚ) * p.2))) :=
          List.mem_map_of_mem _ hp
        have := List.mem_map_of_mem
          (fun p => if p.1 == "moderate" then
            (p.1, p.2 + ((population : ℤ) -
              ((dist.map (fun p => (p.1, int_trunc ((population : ℚ) * p.2)))).map
                Prod.snd).sum)) else p) hbase
        simpa [hmod, hsnd] using this
    next => simp at h

/-- **C2** (amended).  For every population and archetype distribution
accepted by `validate_archetype_distribution` on which
`get_archetype_counts` returns (which requires `'moderate'` to be present
whenever the rounding residual is nonzero), the returned integer counts sum
exactly to the population; each archetype is first assigned
`int(population * share)` (truncation), and the rounding residual —
positive or negative — is then applied to the hardcoded `'moderate'`
archetype, not to the archetype with the largest nominal share. -/
theorem get_archetype_counts_spec (population : ℕ) (dist : List (String × ℚ))
    (counts : List (String × ℤ))
    (hvalid : validate_archetype_distribution dist = true)
    (hnodup : (dist.map Prod.fst).Nodup)
    (h : get_archetype_counts population dist = .ok counts) :
    (counts.map Prod.snd).sum = population ∧
    counts.map Prod.fst = dist.map Prod.fst ∧
    (∀ p ∈ dist, p.1 ≠ "moderate" →
      (p.1, int_trunc ((population : ℚ) * p.2)) ∈ counts) ∧
    (∀ p ∈ dist, p.1 = "moderate" →
      (p.1, int_trunc ((population : ℚ) * p.2) +
        ((population : ℤ) -
          (dist.map (fun q => int_trunc ((population : ℚ) * q.2))).sum)) ∈
        counts) :=
  archetype_counts_ok_facts population dist counts hnodup h

/-- Witness for `get_archetype_counts_spec`: population 10 over shares
`{immune: 1/2, moderate: 1/2}` allocates 5 and 5. -/
theorem get_archetype_counts_spec_witness :
    validate_archetype_distribution [("immune", 1/2), ("moderate", 1/2)] = true ∧
    (([("immune", (5:ℤ)), ("moderate", 5)].map Prod.snd).sum = (10:ℕ)) := by
  refine ⟨by with_unfolding_all rfl, ?_⟩
  exact (get_archetype_counts_spec 10 [("immune", 1/2), ("moderate", 1/2)]
    [("immune", 5), ("moderate", 5)]
    (by with_unfolding_all rfl) (by decide) (by with_unfolding_all rfl)).1

/-- **C2** counterexample to the claim as stated: for population 10 and the
accepted distribution `{immune: 0.55, moderate: 0.45}`, the rounding
residual of 1 is claimed to go to the archetype with the largest nominal
share (`immune`, giving 6/4), but the code adds it to the hardcoded
`'moderate'` entry, returning 5/5. -/
theorem get_archetype_counts_residual_misdirected :
    validate_archetype_distribution [("immune", 11/20), ("moderate", 9/20)] = true ∧
    (9:ℚ)/20 < 11/20 ∧
    int_trunc ((10 : ℚ) * (11/20)) = 5 ∧
    get_archetype_counts 10 [("immune", 11/20), ("moderate", 9/20)]
      = .ok [("immune", 5), ("moderate", 5)] ∧
    get_archetype_counts 10 [("immune", 11/20), ("moderate", 9/20)]
      ≠ .ok [("immune", 6), ("moderate", 4)] := by
  have heq : get_archetype_counts 10 [("immune", 11/20), ("moderate", 9/20)]
      = .ok [("immune", 5), ("moderate", 5)] := by with_unfolding_all rfl
  refine ⟨by with_unfolding_all rfl, by with_unfolding_all decide,
    by with_unfolding_all rfl, heq, ?_⟩
  intro hc
  rw [heq] at hc
  exact absurd (Except.ok.inj hc) (by decide)

/-!
## Step and run structure
-/

theorem compute_list_cons (m : Model) (a : Agent) (rest : List Agent) (idx : ℕ) :
    compute_list m (a :: rest) idx =
      (({a with next_state := some (agent_compute m a (if consumes_draw m a then m.stream idx else 0))} ::
        (compute_list m rest (if consumes_draw m a then idx + 1 else idx)).1),
       (compute_list m rest (if consumes_draw m a then idx + 1 else idx)).2) := rfl

theorem advance_list_cons (a : Agent) (rest : List Agent) (cum : ℕ) :
    advance_list (a :: rest) cum =
      ((agent_advance a cum).1 :: (advance_list rest (agent_advance a cum).2).1,
       (advance_list rest (agent_advance a cum).2).2) := rfl

theorem compute_list_length (m : Model) (l : List Agent) (idx : ℕ) :
    (compute_list m l idx).1.length = l.length := by
  induction l generalizing idx with
  | nil => rfl
  | cons a rest ih => rw [compute_list_cons]; simp [ih]

theorem advance_list_length (l : List Agent) (cum : ℕ) :
    (advance_list l cum).1.length = l.length := by
  induction l generalizing cum with
  | nil => rfl
  | cons a rest ih => rw [advance_list_cons]; simp [ih]

theorem step_agents_length (m : Model) :
    m.step.agents.length = m.agents.length := by
  show (advance_list (compute_list m m.agents m.rng_idx).1
      m.cumulative_infected).1.length = m.agents.length
  rw [advance_list_length, compute_list_length]

theorem step_population (m : Model) : m.step.population = m.population := rfl

theorem collect_rows_structure (m : Model) :
    ∃ row, (collect m).rows = m.rows ++ [row] ∧
      row.susceptible + row.exposed + row.infected + row.recovered
        = m.agents.length ∧
      row.cumulative_infected = m.cumulative_infected :=
  ⟨_, rfl, count_state_partition _, rfl⟩

theorem step_rows_structure (m : Model) :
    ∃ row, m.step.rows = m.rows ++ [row] ∧
      row.susceptible + row.exposed + row.infected + row.recovered
        = m.step.agents.length ∧
      row.cumulative_infected = m.step.cumulative_infected :=
  ⟨_, rfl, count_state_partition _, rfl⟩

theorem run_population (m : Model) (k : ℕ) :
    (m.run k).population = m.population := by
  induction k generalizing m with
  | zero => rfl
  | succ k ih =>
    show (if epidemic_ended m.step = true then m.step
          else m.step.run k).population = m.population
    split
    · rfl
    · rw [ih]
      rfl

theorem run_agents_length (m : Model) (k : ℕ) :
    (m.run k).agents.length = m.agents.length := by
  induction k generalizing m with
  | zero => rfl
  | succ k ih =>
    show (if epidemic_ended m.step = true then m.step
          else m.step.run k).agents.length = m.agents.length
    split
    · exact step_agents_length m
    · rw [ih, step_agents_length]

theorem run_rows_sum (m : Model) (k : ℕ)
    (h0 : ∀ r ∈ m.rows,
      r.susceptible + r.exposed + r.infected + r.recovered = m.agents.length) :
    ∀ r ∈ (m.run k).rows,
      r.susceptible + r.exposed + r.infected + r.recovered = m.agents.length := by
  induction k generalizing m with
  | zero => exact h0
  | succ k ih =>
    have hstep : ∀ r ∈ m.step.rows,
        r.susceptible + r.exposed + r.infected + r.recovered
          = m.step.agents.length := by
      obtain ⟨row, hrows, hsum, _⟩ := step_rows_structure m
      rw [hrows]
      intro r hr
      rcases List.mem_append.mp hr with hold | hnew
      · rw [step_agents_length]
        exact h0 r hold
      · rw [List.mem_singleton.mp hnew]
        exact hsum
    show ∀ r ∈ (if epidemic_ended m.step = true then m.step
        else m.step.run k).rows, _
    split
    · intro r hr
      rw [← step_agents_length]
      exact hstep r hr
    · intro r hr
      rw [← step_agents_length]
      exact ih m.step hstep r hr

theorem run_last_cum (m : Model) (k : ℕ)
    (h0 : m.rows ≠ [] ∧
      (m.rows.getLastD zeroRow).cumulative_infected = m.cumulative_infected) :
    (m.run k).rows ≠ [] ∧
      ((m.run k).rows.getLastD zeroRow).cumulative_infected
        = (m.run k).cumulative_infected := by
  induction k generalizing m with
  | zero => exact h0
  | succ k ih =>
    have hstep : m.step.rows ≠ [] ∧
        (m.step.rows.getLastD zeroRow).cumulative_infected
          = m.step.cumulative_infected := by
      obtain ⟨row, hrows, _, hcum⟩ := step_rows_structure m
      rw [hrows]
      constructor
      · simp
      · rw [List.getLastD_concat]
        exact hcum
    rw [show m.run (k + 1)
        = (if epidemic_ended m.step = true then m.step else m.step.run k)
      from rfl]
    split
    · exact hstep
    · exact ih m.step hstep

/-!
## C8 — early-stopping semantics of `run`
-/

/-- **C8** (confirmed).  For every `run(max_steps)` invocation with
`max_steps ≥ 1`, there is a number of executed steps `s ≥ 1` with `s ≤
max_steps` such that the run result is exactly `s` iterated steps, the run
stops at step `s` only because the epidemic has ended there or the budget
is exhausted, and no strictly earlier executed step ended with both the
E-count and the I-count zero — i.e. early stopping fires exactly on the
first executed step at whose end `E = I = 0`, and no further step is
executed after it even when `max_steps` is larger. -/
theorem run_early_stop (m : Model) (n : ℕ) (hn : 1 ≤ n) :
    ∃ s, 1 ≤ s ∧ s ≤ n ∧ m.run n = stepIter m s ∧
      (epidemic_ended (stepIter m s) = true ∨ s = n) ∧
      ∀ j, 1 ≤ j → j < s → epidemic_ended (stepIter m j) = false := by
  induction n generalizing m with
  | zero => omega
  | succ k ih =>
    by_cases h : epidemic_ended m.step = true
    · refine ⟨1, le_refl 1, by omega, ?_, Or.inl ?_, ?_⟩
      · show (if epidemic_ended m.step = true then m.step else m.step.run k)
            = stepIter m 1
        rw [if_pos h]
        rfl
      · exact h
      · intro j h1 h2
        omega
    · have hfalse : epidemic_ended m.step = false := by
        cases heb : epidemic_ended m.step
        · rfl
        · exact absurd heb h
      rcases Nat.eq_zero_or_pos k with hk | hk
      · subst hk
        refine ⟨1, le_refl 1, le_refl 1, ?_, Or.inr rfl, ?_⟩
        · show (if epidemic_ended m.step = true then m.step else m.step.run 0)
              = stepIter m 1
          rw [if_neg h]
          rfl
        · intro j h1 h2
          omega
      · obtain ⟨s, hs1, hsk, hrun, hend, hprev⟩ := ih m.step hk
        refine ⟨s + 1, by omega, by omega, ?_, ?_, ?_⟩
        · show (if epidemic_ended m.step = true then m.step else m.step.run k)
              = stepIter m (s + 1)
          rw [if_neg h]
          exact hrun
        · exact hend.imp (fun hx => hx) (fun hx => by omega)
        · intro j hj1 hjs
          cases j with
          | zero => omega
          | succ j' =>
            cases j' with
            | zero => exact hfalse
            | succ j'' => exact hprev (j'' + 1) (by omega) (by omega)

/-- Witness for `run_early_stop` at the concrete 2-agent model and a
budget of 3 steps. -/
theorem run_early_stop_witness :
    1 ≤ 3 ∧ ∃ s, 1 ≤ s ∧ s ≤ 3 ∧ mSmall.run 3 = stepIter mSmall s ∧
      (epidemic_ended (stepIter mSmall s) = true ∨ s = 3) ∧
      ∀ j, 1 ≤ j → j < s → epidemic_ended (stepIter mSmall j) = false :=
  ⟨by decide, run_early_stop mSmall 3 (by decide)⟩

/-!
## Construction inversion
-/

theorem apply_seeds_population (m : Model) (s : List Agent) :
    (apply_seeds m s).population = m.population := rfl

theorem apply_seeds_rows (m : Model) (s : List Agent) :
    (apply_seeds m s).rows = m.rows := rfl

theorem apply_seeds_cum (m : Model) (s : List Agent) :
    (apply_seeds m s).cumulative_infected
      = m.cumulative_infected + s.length := rfl

theorem apply_seeds_agents_length (m : Model) (s : List Agent) :
    (apply_seeds m s).agents.length = m.agents.length := by
  show (m.agents.map _).length = m.agents.length
  rw [List.length_map]

theorem collect_agents (m : Model) : (collect m).agents = m.agents := rfl

theorem collect_cum (m : Model) :
    (collect m).cumulative_infected = m.cumulative_infected := rfl

theorem collect_population (m : Model) :
    (collect m).population = m.population := rfl

theorem seed_ok_apply {m : Model} {sample : List Agent → ℕ → List Agent}
    {m' : Model} (h : seed_initial_infections m sample = .ok m') :
    ∃ seeds, m' = apply_seeds m seeds := by
  simp only [seed_initial_infections] at h
  split at h
  · exact ⟨_, (Except.ok.inj h).symm⟩
  · split at h
    · exact ⟨_, (Except.ok.inj h).symm⟩
    · split at h
      · exact ⟨_, (Except.ok.inj h).symm⟩
      · simp at h

/-- The pre-seeding model assembled by `DisinformationModel.__init__` after
agent creation (validation passed, network and agents in place, collector
still empty). -/
theorem mk_ok_elim {cfg : Config} {adj : ℕ → List ℕ}
    {sample : List Agent → ℕ → List Agent} {stream : ℕ → ℚ} {m : Model}
    (h : mkDisinformationModel cfg adj sample stream = .ok m) :
    ∃ counts agents m1,
      validate_archetype_distribution cfg.archetype_dist = true ∧
      cfg.narrative.valid = true ∧
      (1 ≤ cfg.m_edges ∧ cfg.m_edges < cfg.population) ∧
      get_archetype_counts cfg.population cfg.archetype_dist = .ok counts ∧
      create_agents counts 0 = .ok agents ∧
      seed_initial_infections
        { narrative := cfg.narrative
          population := cfg.population
          m_edges := cfg.m_edges
          seeding_strategy := cfg.seeding_strategy
          sigma_base := cfg.sigma_base
          gamma_base := cfg.gamma_base
          omega_base := cfg.omega_base
          cumulative_infected := 0
          current_step := 0
          agents := agents
          adj := adj
          stream := stream
          rng_idx := 0
          rows := [] } sample = .ok m1 ∧
      m = collect m1 := by
  simp only [mkDisinformationModel] at h
  split at h
  next => simp at h
  next hv =>
    split at h
    next => simp at h
    next hn =>
      split at h
      next => simp at h
      next hm =>
        split at h
        next e he => simp at h
        next counts hcounts =>
          split at h
          next e he => simp at h
          next agents hagents =>
            split at h
            next e he => simp at h
            next m1 hm1 =>
              exact ⟨counts, agents, m1, by simpa using hv, by simpa using hn,
                by simpa using hm, hcounts, hagents, hm1,
                (Except.ok.inj h).symm⟩

/-!
## C1 — attack rate
-/

/-- **C1** (amended).  For every valid configuration and every run, the
attack rate computed by `get_peak_metrics()` equals the model's
`cumulative_infected` at run end divided by the population size, and it is
nonnegative; it is *not* bounded by 1, because `cumulative_infected` counts
every entry into state I, reinfections after relapse included. -/
theorem attack_rate_eq (cfg : Config) (adj : ℕ → List ℕ)
    (sample : List Agent → ℕ → List Agent) (stream : ℕ → ℚ) (m : Model)
    (k : ℕ) (h : mkDisinformationModel cfg adj sample stream = .ok m) :
    (get_peak_metrics (m.run k)).attack_rate
      = (((m.run k).cumulative_infected : ℚ) / ((m.run k).population : ℚ)) ∧
    0 ≤ (get_peak_metrics (m.run k)).attack_rate := by
  obtain ⟨counts, agents, m1, _, _, _, _, _, hm1, hcollect⟩ := mk_ok_elim h
  obtain ⟨seeds, hseeds⟩ := seed_ok_apply hm1
  have h0 : m.rows ≠ [] ∧
      (m.rows.getLastD zeroRow).cumulative_infected = m.cumulative_infected := by
    obtain ⟨row, hrows, _, hcum⟩ := collect_rows_structure m1
    have hm1rows : m1.rows = [] := by rw [hseeds, apply_seeds_rows]
    rw [hcollect, hrows, hm1rows]
    constructor
    · simp
    · show ((([] : List Row) ++ [row]).getLastD zeroRow).cumulative_infected = _
      rw [List.getLastD_concat, collect_cum]
      exact hcum
  have hlast := run_last_cum m k h0
  have hrate : (get_peak_metrics (m.run k)).attack_rate
      = ((((m.run k).rows.getLastD zeroRow).cumulative_infected : ℚ)
          / ((m.run k).population : ℚ)) := rfl
  constructor
  · rw [hrate, hlast.2]
  · rw [hrate, hlast.2]
    exact div_nonneg (Nat.cast_nonneg _) (Nat.cast_nonneg _)

/-- Witness for `attack_rate_eq` at the concrete 2-agent model after one
step. -/
theorem attack_rate_eq_witness :
    (get_peak_metrics (mSmall.run 1)).attack_rate
      = (((mSmall.run 1).cumulative_infected : ℚ)
          / ((mSmall.run 1).population : ℚ)) ∧
    0 ≤ (get_peak_metrics (mSmall.run 1)).attack_rate :=
  attack_rate_eq cfgSmall (starAdj 2) sampleTake zeroStream mSmall 1
    (by with_unfolding_all rfl)

/-- **C1** counterexample to `attack_rate ∈ [0,1]`: on the valid 2-agent
configuration `cfgSmall` with the all-zeros draw stream, agent 0 is seeded,
recovers, relapses to S, is re-exposed and re-adopts while agent 1 also
passes through I, so after 4 steps `cumulative_infected = 3 > population =
2` and the attack rate is 3/2 > 1. -/
theorem attack_rate_exceeds_one :
    (mkDisinformationModel cfgSmall (starAdj 2) sampleTake zeroStream).isOk
      = true ∧
    (mSmall.run 4).population = 2 ∧
    (mSmall.run 4).cumulative_infected = 3 ∧
    (get_peak_metrics (mSmall.run 4)).attack_rate = 3/2 ∧
    1 < (get_peak_metrics (mSmall.run 4)).attack_rate := by
  refine ⟨by with_unfolding_all rfl, by with_unfolding_all rfl,
    by with_unfolding_all rfl, by with_unfolding_all rfl, ?_⟩
  with_unfolding_all decide

/-!
## C9 — R₀ and the infinite-period sentinel
-/

/-- **C9** (confirmed).  `calculate_R0()` can be invoked on a freshly
constructed model, before any `step()` call; whenever the mean of the
agents' γ values is strictly positive it returns the finite value
⟨α⟩·⟨σ⟩·⟨k⟩·(1/⟨γ⟩), and when the mean γ is zero the components carry the
infinite infectious-period sentinel instead of an error being raised
(the embedding of `calculate_R0` is total). -/
theorem calculate_R0_sentinel (cfg : Config) (adj : ℕ → List ℕ)
    (sample : List Agent → ℕ → List Agent) (stream : ℕ → ℚ) (m : Model)
    (h : mkDisinformationModel cfg adj sample stream = .ok m) :
    (0 < mean_gamma_of m →
      (calculate_R0 m).1 = ExtQ.val
        ((calculate_R0 m).2.mean_alpha * (calculate_R0 m).2.mean_sigma *
          (calculate_R0 m).2.mean_degree * (1 / mean_gamma_of m))) ∧
    (mean_gamma_of m = 0 →
      (calculate_R0 m).2.infectious_period = ExtQ.inf) := by
  constructor
  · intro hpos
    show ExtQ.smul _
        (if 0 < mean_gamma_of m then ExtQ.val (1 / mean_gamma_of m)
         else ExtQ.inf) = _
    rw [if_pos hpos]
    rfl
  · intro hz
    show (if 0 < mean_gamma_of m then ExtQ.val (1 / mean_gamma_of m)
         else ExtQ.inf) = ExtQ.inf
    rw [hz, if_neg (lt_irrefl 0)]

/-- Witness for `calculate_R0_sentinel`: the fresh 2-agent model has mean
γ = 1 > 0 and a finite R₀. -/
theorem calculate_R0_sentinel_witness :
    0 < mean_gamma_of mSmall ∧
    (calculate_R0 mSmall).1 = ExtQ.val
      ((calculate_R0 mSmall).2.mean_alpha * (calculate_R0 mSmall).2.mean_sigma *
        (calculate_R0 mSmall).2.mean_degree * (1 / mean_gamma_of mSmall)) :=
  ⟨by with_unfolding_all decide,
   (calculate_R0_sentinel cfgSmall (starAdj 2) sampleTake zeroStream mSmall
      (by with_unfolding_all rfl)).1 (by with_unfolding_all decide)⟩

/-!
## C5 — profile-stratified metrics
-/

/-- **C5** (confirmed against the spec-modelled operation).  The engine's
`get_profile_stratified_metrics()` returns one entry per archetype, and for
each archetype: the total agent count, the count of agents ever infected
(`infection_count > 0`), attack rate = ever-infected/total, the mean
`time_in_I`, total infections, total recoveries, correction rate =
recoveries/infections (0 when there are no infections), and the mean
relapses per agent. -/
theorem profile_stratified_metrics_spec (m : Model) :
    ((get_profile_stratified_metrics m).map Prod.fst = ARCHETYPES.map Prod.fst) ∧
    ∀ name pm, (name, pm) ∈ get_profile_stratified_metrics m →
      pm.total_agents
        = (m.agents.filter (fun a => a.archetype == name)).length ∧
      pm.ever_infected
        = (m.agents.filter (fun a => a.archetype == name)).countP
            (fun a => 0 < a.infection_count) ∧
      pm.ever_infected ≤ pm.total_agents ∧
      pm.attack_rate = (pm.ever_infected : ℚ) / (pm.total_agents : ℚ) ∧
      pm.mean_time_in_I
        = listMean ((m.agents.filter (fun a => a.archetype == name)).map
            (fun a => (a.time_in_I : ℚ))) ∧
      pm.total_infections
        = ((m.agents.filter (fun a => a.archetype == name)).map
            Agent.infection_count).sum ∧
      pm.total_recoveries
        = ((m.agents.filter (fun a => a.archetype == name)).map
            Agent.recovery_count).sum ∧
      pm.correction_rate
        = (if pm.total_infections = 0 then 0
           else (pm.total_recoveries : ℚ) / (pm.total_infections : ℚ)) ∧
      pm.mean_relapses
        = listMean ((m.agents.filter (fun a => a.archetype == name)).map
            (fun a => (a.relapse_count : ℚ))) := by
  constructor
  · rw [get_profile_stratified_metrics, List.map_map]
    rfl
  · intro name pm hmem
    obtain ⟨q, hq, heq⟩ := List.mem_map.mp hmem
    obtain ⟨h1, h2⟩ := Prod.mk.injEq .. |>.mp heq
    subst h1
    subst h2
    refine ⟨rfl, rfl, List.countP_le_length _, rfl, rfl, rfl, rfl, rfl, rfl⟩

/-- Witness for `profile_stratified_metrics_spec` on the fresh 2-agent
model: the `moderate` entry reports 2 agents, none ever infected. -/
theorem profile_stratified_metrics_spec_witness :
    ("moderate",
        ({ total_agents := 2, ever_infected := 0, attack_rate := 0,
           mean_time_in_I := 0, total_infections := 0, total_recoveries := 0,
           correction_rate := 0, mean_relapses := 0 } : ProfileMetrics))
      ∈ get_profile_stratified_metrics mSmall ∧
    (2 : ℕ)
      = (mSmall.agents.filter (fun a => a.archetype == "moderate")).length :=
  ⟨by with_unfolding_all decide,
   (((profile_stratified_metrics_spec mSmall).2 "moderate"
      ({ total_agents := 2, ever_infected := 0, attack_rate := 0,
         mean_time_in_I := 0, total_infections := 0, total_recoveries := 0,
         correction_rate := 0, mean_relapses := 0 } : ProfileMetrics)
      (by with_unfolding_all decide)).1)⟩

/-!
## C10 — seeding frame
-/

theorem create_agents_fresh {counts : List (String × ℤ)} {start : ℕ}
    {agents : List Agent} (h : create_agents counts start = .ok agents) :
    ∀ a ∈ agents, a.state = SState.S ∧ a.next_state = none ∧
      a.infection_count = 0 ∧ a.recovery_count = 0 ∧ a.relapse_count = 0 ∧
      a.time_in_I = 0 ∧ a.current_I_duration = 0 := by
  induction counts generalizing start agents with
  | nil =>
    cases h
    intro a ha
    simp at ha
  | cons p rest ih =>
    simp only [create_agents] at h
    split at h
    next => simp at h
    next q hq =>
      split at h
      next tail htail =>
        cases h
        intro a ha
        rcases List.mem_append.mp ha with hthese | htl
        · obtain ⟨i, _, hi⟩ := List.mem_map.mp hthese
          rw [← hi]
          exact ⟨rfl, rfl, rfl, rfl, rfl, rfl, rfl⟩
        · exact ih htail a htl
      next => simp at h

/-- **C10** (confirmed).  Initial seeding mutates only each selected
agent's state (to I) and the model-level `cumulative_infected` counter:
after seeding and before the first step, every agent — seeded or not — has
`infection_count`, `recovery_count`, `relapse_count`, `time_in_I` and
`current_I_duration` all equal to 0 and every state is S or I, so no agent
is counted by the `infection_count > 0` "ever infected" metric. -/
theorem seeding_frame (cfg : Config) (adj : ℕ → List ℕ)
    (sample : List Agent → ℕ → List Agent) (stream : ℕ → ℚ) (m : Model)
    (h : mkDisinformationModel cfg adj sample stream = .ok m) :
    (∀ a ∈ m.agents,
      a.infection_count = 0 ∧ a.recovery_count = 0 ∧ a.relapse_count = 0 ∧
      a.time_in_I = 0 ∧ a.current_I_duration = 0 ∧
      (a.state = SState.S ∨ a.state = SState.I)) ∧
    m.agents.countP (fun a => 0 < a.infection_count) = 0 := by
  obtain ⟨counts, agents, m1, _, _, _, _, hagents, hm1, hcollect⟩ := mk_ok_elim h
  obtain ⟨seeds, hseeds⟩ := seed_ok_apply hm1
  have hfresh := create_agents_fresh hagents
  have hmain : ∀ a ∈ m.agents,
      a.infection_count = 0 ∧ a.recovery_count = 0 ∧ a.relapse_count = 0 ∧
      a.time_in_I = 0 ∧ a.current_I_duration = 0 ∧
      (a.state = SState.S ∨ a.state = SState.I) := by
    intro a ha
    rw [hcollect, collect_agents, hseeds] at ha
    obtain ⟨b, hb, hfb⟩ := List.mem_map.mp ha
    have hbfresh := hfresh b hb
    by_cases hcond :
        (seeds.any (fun c => c.unique_id == b.unique_id)) = true
    · rw [if_pos hcond] at hfb
      rw [← hfb]
      exact ⟨hbfresh.2.2.1, hbfresh.2.2.2.1, hbfresh.2.2.2.2.1,
        hbfresh.2.2.2.2.2.1, hbfresh.2.2.2.2.2.2, Or.inr rfl⟩
    · rw [if_neg hcond] at hfb
      rw [← hfb]
      exact ⟨hbfresh.2.2.1, hbfresh.2.2.2.1, hbfresh.2.2.2.2.1,
        hbfresh.2.2.2.2.2.1, hbfresh.2.2.2.2.2.2, Or.inl hbfresh.1⟩
  refine ⟨hmain, ?_⟩
  rw [List.countP_eq_zero]
  intro a ha
  simp [(hmain a ha).1]

/-- Witness for `seeding_frame` at the concrete 2-agent model. -/
theorem seeding_frame_witness :
    mSmall.agents.countP (fun a => 0 < a.infection_count) = 0 :=
  (seeding_frame cfgSmall (starAdj 2) sampleTake zeroStream mSmall
    (by with_unfolding_all rfl)).2

/-!
## C7 — state counts versus population
-/

theorem create_agents_length {counts : List (String × ℤ)} {start : ℕ}
    {agents : List Agent} (h : create_agents counts start = .ok agents) :
    agents.length = (counts.map (fun p => p.2.toNat)).sum := by
  induction counts generalizing start agents with
  | nil =>
    cases h
    rfl
  | cons p rest ih =>
    simp only [create_agents] at h
    split at h
    next => simp at h
    next q hq =>
      split at h
      next tail htail =>
        cases h
        simp [ih htail]
      next => simp at h

theorem toNat_sum_eq {counts : List (String × ℤ)}
    (hnonneg : ∀ p ∈ counts, 0 ≤ p.2) :
    (counts.map (fun p => p.2.toNat)).sum
      = ((counts.map Prod.snd).sum).toNat := by
  induction counts with
  | nil => rfl
  | cons p rest ih =>
    have hp := hnonneg p (List.mem_cons_self ..)
    have hrest : 0 ≤ (rest.map Prod.snd).sum :=
      List.sum_nonneg (by
        intro x hx
        obtain ⟨q, hq, hxq⟩ := List.mem_map.mp hx
        exact hxq ▸ hnonneg q (List.mem_cons_of_mem _ hq))
    have ihr := ih (fun q hq => hnonneg q (List.mem_cons_of_mem _ hq))
    simp only [List.map_cons, List.sum_cons]
    omega

theorem toNat_sum_ge (counts : List (String × ℤ)) :
    ((counts.map Prod.snd).sum).toNat
      ≤ (counts.map (fun p => p.2.toNat)).sum := by
  induction counts with
  | nil => simp
  | cons p rest ih =>
    simp only [List.map_cons, List.sum_cons]
    omega

/-- The number of agents a freshly constructed model holds: the sum of the
(truncated-at-zero) allocated archetype counts. -/
theorem mk_agents_length {cfg : Config} {adj : ℕ → List ℕ}
    {sample : List Agent → ℕ → List Agent} {stream : ℕ → ℚ} {m : Model}
    {counts : List (String × ℤ)}
    (h : mkDisinformationModel cfg adj sample stream = .ok m)
    (hcounts : get_archetype_counts cfg.population cfg.archetype_dist
      = .ok counts) :
    m.agents.length = (counts.map (fun p => p.2.toNat)).sum ∧
    m.population = cfg.population := by
  obtain ⟨counts', agents, m1, _, _, _, hcounts', hagents, hm1, hcollect⟩ :=
    mk_ok_elim h
  obtain ⟨seeds, hseeds⟩ := seed_ok_apply hm1
  have hceq : counts' = counts := by
    have := hcounts'.symm.trans hcounts
    exact Except.ok.inj this
  subst hceq
  constructor
  · rw [hcollect, collect_agents, hseeds]
    rw [apply_seeds_agents_length]
    exact create_agents_length hagents
  · rw [hcollect, collect_population, hseeds, apply_seeds_population]

/-- **C7** (amended).  For every run of a valid configuration, every row of
the collected time series (the construction row included) has its S, E, I,
R counts summing exactly to the number of instantiated agents, and every
agent's state is always one of S, E, I, R.  The sum equals the declared
population size provided the rounding-adjusted archetype counts are all
nonnegative (which holds in particular whenever the shares sum to at most
1); a tolerance-abusing distribution can make the adjusted `'moderate'`
count negative, in which case more agents than `population` are created
and every row sums to that larger agent count instead. -/
theorem rows_sum_population (cfg : Config) (adj : ℕ → List ℕ)
    (sample : List Agent → ℕ → List Agent) (stream : ℕ → ℚ) (m : Model)
    (k : ℕ) (counts : List (String × ℤ))
    (h : mkDisinformationModel cfg adj sample stream = .ok m)
    (hnodup : (cfg.archetype_dist.map Prod.fst).Nodup)
    (hcounts : get_archetype_counts cfg.population cfg.archetype_dist
      = .ok counts)
    (hnonneg : ∀ p ∈ counts, 0 ≤ p.2) :
    (∀ r ∈ (m.run k).rows,
      r.susceptible + r.exposed + r.infected + r.recovered
        = (m.run k).population) ∧
    ∀ a ∈ (m.run k).agents,
      a.state = SState.S ∨ a.state = SState.E ∨ a.state = SState.I ∨
        a.state = SState.R := by
  obtain ⟨hlen, hpop⟩ := mk_agents_length h hcounts
  have hsum : (counts.map Prod.snd).sum = cfg.population :=
    (archetype_counts_ok_facts cfg.population cfg.archetype_dist counts
      hnodup hcounts).1
  have hlenpop : m.agents.length = m.population := by
    rw [hlen, toNat_sum_eq hnonneg, hsum, hpop, Int.toNat_natCast]
  have h0 : ∀ r ∈ m.rows,
      r.susceptible + r.exposed + r.infected + r.recovered
        = m.agents.length := by
    obtain ⟨counts', agents, m1, _, _, _, _, _, hm1, hcollect⟩ := mk_ok_elim h
    obtain ⟨seeds, hseeds⟩ := seed_ok_apply hm1
    obtain ⟨row, hrows, hrsum, _⟩ := collect_rows_structure m1
    have hm1rows : m1.rows = [] := by rw [hseeds, apply_seeds_rows]
    intro r hr
    rw [hcollect] at hr ⊢
    rw [collect_agents]
    rw [hrows, hm1rows] at hr
    rcases List.mem_append.mp hr with habs | hnew
    · simp at habs
    · rw [List.mem_singleton.mp hnew]
      exact hrsum
  constructor
  · intro r hr
    rw [run_population, ← hlenpop]
    exact run_rows_sum m k h0 r hr
  · intro a _
    cases a.state
    · exact Or.inl rfl
    · exact Or.inr (Or.inl rfl)
    · exact Or.inr (Or.inr (Or.inl rfl))
    · exact Or.inr (Or.inr (Or.inr rfl))

/-- Witness for `rows_sum_population` at the concrete 2-agent model over
one step. -/
theorem rows_sum_population_witness :
    (∀ p ∈ [("moderate", (2:ℤ))], 0 ≤ p.2) ∧
    ∀ r ∈ (mSmall.run 1).rows,
      r.susceptible + r.exposed + r.infected + r.recovered
        = (mSmall.run 1).population :=
  ⟨by decide,
   (rows_sum_population cfgSmall (starAdj 2) sampleTake zeroStream mSmall 1
      [("moderate", 2)] (by with_unfolding_all rfl) (by decide)
      (by with_unfolding_all rfl) (by decide)).1⟩

set_option maxRecDepth 200000 in
/-- **C7** counterexample to the claim as stated: `cfgOver` passes
`validate_archetype_distribution` (its shares sum to `1 + 1/1024`, within
the 0.001 tolerance, with every product `population × share` exact in
binary floating point), yet construction allocates 512 + 513 agents,
drives the `'moderate'` count to −1 (creating no agents for it), and
instantiates 1025 agents against `population = 1024`: the construction row
of the time series sums to 1025 ≠ 1024. -/
theorem rows_sum_exceeds_population :
    validate_archetype_distribution cfgOver.archetype_dist = true ∧
    get_archetype_counts 1024 cfgOver.archetype_dist
      = .ok [("immune", 512), ("superspreader", 513), ("moderate", -1)] ∧
    (mkDisinformationModel cfgOver (starAdj 1024) sampleTake zeroStream).isOk
      = true ∧
    mOver.population = 1024 ∧
    (mOver.rows.headD zeroRow).susceptible + (mOver.rows.headD zeroRow).exposed
      + (mOver.rows.headD zeroRow).infected
      + (mOver.rows.headD zeroRow).recovered = 1025 := by
  refine ⟨by with_unfolding_all rfl, by with_unfolding_all rfl, ?_, ?_, ?_⟩
  · with_unfolding_all rfl
  · with_unfolding_all rfl
  · with_unfolding_all rfl

/-!
## Seeding counts (C3, C6)
-/

theorem n_seed_max (m : Model) :
    n_seed_of m = max 1
      ((int_trunc ((m.population : ℚ) * m.narrative.initial_seeding)).toNat) := by
  show (if (int_trunc ((m.population : ℚ) *
      m.narrative.initial_seeding)).toNat = 0 then 1
    else (int_trunc ((m.population : ℚ) *
      m.narrative.initial_seeding)).toNat) = _
  split <;> omega

theorem n_seed_le_pop (m : Model) (hpop : 1 ≤ m.population)
    (hp0 : 0 ≤ m.narrative.initial_seeding)
    (hp1 : m.narrative.initial_seeding ≤ 1) :
    n_seed_of m ≤ m.population := by
  have hx0 : 0 ≤ (m.population : ℚ) * m.narrative.initial_seeding :=
    mul_nonneg (by positivity) hp0
  have hx : (m.population : ℚ) * m.narrative.initial_seeding
      ≤ (m.population : ℚ) := by
    calc (m.population : ℚ) * m.narrative.initial_seeding
        ≤ (m.population : ℚ) * 1 :=
          mul_le_mul_of_nonneg_left hp1 (by positivity)
      _ = (m.population : ℚ) := mul_one _
  have htr : int_trunc ((m.population : ℚ) * m.narrative.initial_seeding)
      ≤ (m.population : ℤ) := by
    unfold int_trunc
    rw [if_pos hx0]
    calc ⌊(m.population : ℚ) * m.narrative.initial_seeding⌋
        ≤ ⌊(m.population : ℚ)⌋ := Int.floor_le_floor hx
      _ = (m.population : ℤ) := Int.floor_natCast _
  have hle : (int_trunc ((m.population : ℚ) *
      m.narrative.initial_seeding)).toNat ≤ m.population :=
    Int.toNat_le.mpr htr
  have hmax := n_seed_max m
  omega

theorem create_agents_ids {counts : List (String × ℤ)} {start : ℕ}
    {agents : List Agent} (h : create_agents counts start = .ok agents) :
    agents.map (fun a => a.unique_id) = List.range' start agents.length := by
  induction counts generalizing start agents with
  | nil =>
    cases h
    rfl
  | cons p rest ih =>
    simp only [create_agents] at h
    split at h
    next => simp at h
    next q hq =>
      split at h
      next tail htail =>
        cases h
        rw [List.map_append, ih htail]
        have hthese : ((List.range p.2.toNat).map
            (fun i => mkAgent (start + i) p.1 q.2)).map (fun a => a.unique_id)
            = List.range' start p.2.toNat := by
          rw [List.map_map, List.range'_eq_map_range]
          rfl
        rw [hthese, List.length_append, List.length_map, List.length_range]
        have happ := List.range'_append start p.2.toNat tail.length 1
        simp only [one_mul] at happ
        rw [happ, Nat.add_comm]
      next => simp at h

theorem apply_seeds_ids (m : Model) (seeds : List Agent) :
    (apply_seeds m seeds).agents.map (fun a => a.unique_id)
      = m.agents.map (fun a => a.unique_id) := by
  show (m.agents.map _).map _ = _
  rw [List.map_map]
  apply List.map_congr_left
  intro a _
  by_cases hc : (seeds.any (fun b => b.unique_id == a.unique_id)) = true
  · simp only [Function.comp_apply, if_pos hc]
  · simp only [Function.comp_apply, if_neg hc]

theorem countP_range_mem (S : List ℕ) (L : ℕ) (hS : S.Nodup)
    (hlt : ∀ s ∈ S, s < L) :
    (List.range L).countP (fun i => S.any (fun s => s == i)) = S.length := by
  rw [List.countP_eq_length_filter]
  have hmemf : ∀ i,
      i ∈ (List.range L).filter (fun i => S.any (fun s => s == i)) ↔ i ∈ S := by
    intro i
    rw [List.mem_filter, List.mem_range, List.any_eq_true]
    constructor
    · rintro ⟨_, s, hs, hse⟩
      rw [show s = i from by simpa using hse] at hs
      exact hs
    · intro hi
      exact ⟨hlt i hi, i, hi, by simp⟩
  apply Nat.le_antisymm
  · exact (List.Nodup.subperm ((List.nodup_range L).filter _)
      (fun x hx => (hmemf x).mp hx)).length_le
  · exact (List.Nodup.subperm hS (fun x hx => (hmemf x).mpr hx)).length_le

theorem countP_any_uid (agents seeds : List Agent)
    (hids_nodup : (agents.map (fun a => a.unique_id)).Nodup)
    (hrange : agents.map (fun a => a.unique_id) = List.range agents.length)
    (hsub : ∀ b ∈ seeds, b ∈ agents)
    (hnd : seeds.Nodup) :
    agents.countP (fun a => seeds.any (fun b => b.unique_id == a.unique_id))
      = seeds.length := by
  have hSnodup : (seeds.map (fun b => b.unique_id)).Nodup :=
    List.Nodup.map_on (fun x hx y hy hxy =>
      List.inj_on_of_nodup_map hids_nodup (hsub x hx) (hsub y hy) hxy) hnd
  have hSlt : ∀ s ∈ seeds.map (fun b => b.unique_id), s < agents.length := by
    intro s hs
    obtain ⟨b, hb, hbs⟩ := List.mem_map.mp hs
    have hmm : s ∈ agents.map (fun a => a.unique_id) :=
      hbs ▸ List.mem_map_of_mem _ (hsub b hb)
    rw [hrange] at hmm
    exact List.mem_range.mp hmm
  have h1 : agents.countP
        (fun a => seeds.any (fun b => b.unique_id == a.unique_id))
      = (agents.map (fun a => a.unique_id)).countP
          (fun i => seeds.any (fun b => b.unique_id == i)) := by
    rw [List.countP_map]
    rfl
  rw [h1, hrange]
  have h2 : (List.range agents.length).countP
        (fun i => seeds.any (fun b => b.unique_id == i))
      = (List.range agents.length).countP
          (fun i => (seeds.map (fun b => b.unique_id)).any (fun s => s == i)) := by
    apply List.countP_congr
    intro i _
    simp only [List.any_eq_true]
    constructor
    · rintro ⟨b, hb, hbe⟩
      exact ⟨b.unique_id, List.mem_map_of_mem _ hb, hbe⟩
    · rintro ⟨s, hs, hse⟩
      obtain ⟨b, hb, rfl⟩ := List.mem_map.mp hs
      exact ⟨b, hb, hse⟩
  rw [h2, ← List.length_map seeds (fun b => b.unique_id)]
  exact countP_range_mem _ agents.length hSnodup hSlt

theorem apply_seeds_count_I (m0 : Model) (seeds : List Agent)
    (hallS : ∀ a ∈ m0.agents, a.state = SState.S) :
    count_state (apply_seeds m0 seeds).agents SState.I
      = m0.agents.countP
          (fun a => seeds.any (fun b => b.unique_id == a.unique_id)) := by
  show (m0.agents.map _).countP _ = _
  rw [List.countP_map]
  apply List.countP_congr
  intro a ha
  by_cases hc : (seeds.any (fun b => b.unique_id == a.unique_id)) = true
  · simp only [Function.comp_apply, if_pos hc, hc]
    simp
  · simp only [Function.comp_apply, if_neg hc, hc]
    simp [hallS a ha]

theorem narrative_valid_bounds {n : Narrative} (h : n.valid = true) :
    0 ≤ n.baseline_transmission ∧ n.baseline_transmission ≤ 1 ∧
    0 ≤ n.emotional_intensity ∧ n.emotional_intensity ≤ 1 ∧
    0 ≤ n.identity_weight ∧ n.identity_weight ≤ 1 ∧
    0 ≤ n.initial_seeding ∧ n.initial_seeding ≤ 1 :=
  of_decide_eq_true h

theorem seed_random_eq (m : Model) (sample : List Agent → ℕ → List Agent)
    (hs : m.seeding_strategy = "random") :
    seed_initial_infections m sample
      = .ok (apply_seeds m (sample m.agents (n_seed_of m))) := by
  simp only [seed_initial_infections, hs]
  rfl

theorem seed_hub_eq (m : Model) (sample : List Agent → ℕ → List Agent)
    (hs : m.seeding_strategy = "hub_targeted") :
    seed_initial_infections m sample
      = .ok (apply_seeds m (m.agents.filter (fun a =>
          (((((List.range m.population).map
              (fun n => (n, (m.adj n).length))).mergeSort
                (fun x y => y.2 ≤ x.2)).take (n_seed_of m)).map
            Prod.fst).contains a.unique_id))) := by
  simp only [seed_initial_infections, hs]
  rfl

theorem mk_random_count {cfg : Config} {adj : ℕ → List ℕ}
    {sample : List Agent → ℕ → List Agent} {stream : ℕ → ℚ} {m : Model}
    (h : mkDisinformationModel cfg adj sample stream = .ok m)
    (hsample : SampleOK sample)
    (hstrat : cfg.seeding_strategy = "random")
    (hnodup : (cfg.archetype_dist.map Prod.fst).Nodup) :
    count_state m.agents SState.I
      = max 1 ((int_trunc ((cfg.population : ℚ) *
          cfg.narrative.initial_seeding)).toNat) ∧
    m.cumulative_infected = count_state m.agents SState.I ∧
    1 ≤ count_state m.agents SState.I := by
  obtain ⟨counts, agents, m1, hv, hn, hm, hcounts, hagents, hm1, hcollect⟩ :=
    mk_ok_elim h
  obtain ⟨m0, hM⟩ : ∃ m0 : Model,
      ({ narrative := cfg.narrative
         population := cfg.population
         m_edges := cfg.m_edges
         seeding_strategy := cfg.seeding_strategy
         sigma_base := cfg.sigma_base
         gamma_base := cfg.gamma_base
         omega_base := cfg.omega_base
         cumulative_infected := 0
         current_step := 0
         agents := agents
         adj := adj
         stream := stream
         rng_idx := 0
         rows := [] } : Model) = m0 := ⟨_, rfl⟩
  rw [hM] at hm1
  have hM_pop : m0.population = cfg.population := by rw [← hM]
  have hM_nar : m0.narrative = cfg.narrative := by rw [← hM]
  have hM_agents : m0.agents = agents := by rw [← hM]
  have hM_strat : m0.seeding_strategy = cfg.seeding_strategy := by rw [← hM]
  have hM_cum : m0.cumulative_infected = 0 := by rw [← hM]
  rw [seed_random_eq m0 sample (by rw [hM_strat, hstrat])] at hm1
  have hm1' : m1 = apply_seeds m0 (sample m0.agents (n_seed_of m0)) :=
    (Except.ok.inj hm1).symm
  have hb := narrative_valid_bounds hn
  have hids := create_agents_ids hagents
  have hids' : agents.map (fun a => a.unique_id)
      = List.range agents.length := by
    rw [hids, List.range_eq_range']
  have hidnodup : (agents.map (fun a => a.unique_id)).Nodup := by
    rw [hids']
    exact List.nodup_range _
  have hagnodup : agents.Nodup := List.Nodup.of_map _ hidnodup
  have hlen : cfg.population ≤ agents.length := by
    have h1 := create_agents_length hagents
    have h2 := toNat_sum_ge counts
    have h3 := (archetype_counts_ok_facts cfg.population cfg.archetype_dist
      counts hnodup hcounts).1
    rw [h3, Int.toNat_natCast] at h2
    omega
  have hns_le : n_seed_of m0 ≤ cfg.population := by
    have := n_seed_le_pop m0 (by rw [hM_pop]; omega)
      (by rw [hM_nar]; exact hb.2.2.2.2.2.2.1)
      (by rw [hM_nar]; exact hb.2.2.2.2.2.2.2)
    rw [hM_pop] at this
    exact this
  have hk : n_seed_of m0 ≤ m0.agents.length := by
    rw [hM_agents]
    omega
  obtain ⟨hslen, hsnd, hssub⟩ :=
    hsample m0.agents (n_seed_of m0) (by rw [hM_agents]; exact hagnodup) hk
  have hallS : ∀ a ∈ m0.agents, a.state = SState.S := by
    rw [hM_agents]
    intro a ha
    exact (create_agents_fresh hagents a ha).1
  have hcount : count_state m1.agents SState.I
      = (sample m0.agents (n_seed_of m0)).length := by
    rw [hm1', apply_seeds_count_I m0 _ hallS]
    apply countP_any_uid m0.agents _ ?_ ?_ hssub hsnd
    · rw [hM_agents]
      exact hidnodup
    · rw [hM_agents]
      exact hids'
  have hmagents : m.agents = m1.agents := by rw [hcollect, collect_agents]
  have hcsi : count_state m.agents SState.I = n_seed_of m0 := by
    rw [hmagents, hcount, hslen]
  have hmcum : m.cumulative_infected = n_seed_of m0 := by
    rw [hcollect, collect_cum, hm1', apply_seeds_cum, hM_cum, hslen]
    omega
  have hnsmax : n_seed_of m0
      = max 1 ((int_trunc ((cfg.population : ℚ) *
          cfg.narrative.initial_seeding)).toNat) := by
    rw [n_seed_max, hM_pop, hM_nar]
  refine ⟨by rw [hcsi, hnsmax], by rw [hmcum, hcsi], ?_⟩
  rw [hcsi, hnsmax]
  omega

theorem mk_hub_count {cfg : Config} {adj : ℕ → List ℕ}
    {sample : List Agent → ℕ → List Agent} {stream : ℕ → ℚ} {m : Model}
    (h : mkDisinformationModel cfg adj sample stream = .ok m)
    (hstrat : cfg.seeding_strategy = "hub_targeted")
    (hnodup : (cfg.archetype_dist.map Prod.fst).Nodup) :
    m.cumulative_infected = count_state m.agents SState.I ∧
    1 ≤ count_state m.agents SState.I := by
  obtain ⟨counts, agents, m1, hv, hn, hm, hcounts, hagents, hm1, hcollect⟩ :=
    mk_ok_elim h
  obtain ⟨m0, hM⟩ : ∃ m0 : Model,
      ({ narrative := cfg.narrative
         population := cfg.population
         m_edges := cfg.m_edges
         seeding_strategy := cfg.seeding_strategy
         sigma_base := cfg.sigma_base
         gamma_base := cfg.gamma_base
         omega_base := cfg.omega_base
         cumulative_infected := 0
         current_step := 0
         agents := agents
         adj := adj
         stream := stream
         rng_idx := 0
         rows := [] } : Model) = m0 := ⟨_, rfl⟩
  rw [hM] at hm1
  have hM_pop : m0.population = cfg.population := by rw [← hM]
  have hM_agents : m0.agents = agents := by rw [← hM]
  have hM_strat : m0.seeding_strategy = cfg.seeding_strategy := by rw [← hM]
  have hM_cum : m0.cumulative_infected = 0 := by rw [← hM]
  rw [seed_hub_eq m0 sample (by rw [hM_strat, hstrat])] at hm1
  have hm1' := (Except.ok.inj hm1).symm
  have hids := create_agents_ids hagents
  have hids' : agents.map (fun a => a.unique_id)
      = List.range agents.length := by
    rw [hids, List.range_eq_range']
  have hlen : cfg.population ≤ agents.length := by
    have h1 := create_agents_length hagents
    have h2 := toNat_sum_ge counts
    have h3 := (archetype_counts_ok_facts cfg.population cfg.archetype_dist
      counts hnodup hcounts).1
    rw [h3, Int.toNat_natCast] at h2
    omega
  have hallS : ∀ a ∈ m0.agents, a.state = SState.S := by
    rw [hM_agents]
    intro a ha
    exact (create_agents_fresh hagents a ha).1
  have hcnt1 := apply_seeds_count_I m0
    (m0.agents.filter (fun a =>
      (((((List.range m0.population).map
          (fun n => (n, (m0.adj n).length))).mergeSort
            (fun x y => y.2 ≤ x.2)).take (n_seed_of m0)).map
        Prod.fst).contains a.unique_id)) hallS
  have hcnt2 : m0.agents.countP (fun a =>
        (m0.agents.filter (fun a =>
          (((((List.range m0.population).map
              (fun n => (n, (m0.adj n).length))).mergeSort
                (fun x y => y.2 ≤ x.2)).take (n_seed_of m0)).map
            Prod.fst).contains a.unique_id)).any
          (fun b => b.unique_id == a.unique_id))
      = m0.agents.countP (fun a =>
          (((((List.range m0.population).map
              (fun n => (n, (m0.adj n).length))).mergeSort
                (fun x y => y.2 ≤ x.2)).take (n_seed_of m0)).map
            Prod.fst).contains a.unique_id) := by
    apply List.countP_congr
    intro a ha
    constructor
    · intro hx
      rw [List.any_eq_true] at hx
      obtain ⟨b, hb, hbe⟩ := hx
      have hbid : b.unique_id = a.unique_id := by simpa using hbe
      have hbc := (List.mem_filter.mp hb).2
      rw [← hbid]
      exact hbc
    · intro hx
      rw [List.any_eq_true]
      exact ⟨a, List.mem_filter.mpr ⟨ha, hx⟩, by simp⟩
  have hcnt3 := (List.countP_eq_length_filter (fun a =>
      (((((List.range m0.population).map
          (fun n => (n, (m0.adj n).length))).mergeSort
            (fun x y => y.2 ≤ x.2)).take (n_seed_of m0)).map
        Prod.fst).contains a.unique_id) m0.agents)
  have hmagents : m.agents = m1.agents := by rw [hcollect, collect_agents]
  have hcsi : count_state m.agents SState.I
      = m0.agents.countP (fun a =>
          (((((List.range m0.population).map
              (fun n => (n, (m0.adj n).length))).mergeSort
                (fun x y => y.2 ≤ x.2)).take (n_seed_of m0)).map
            Prod.fst).contains a.unique_id) := by
    rw [hmagents, hm1', hcnt1, hcnt2]
  constructor
  · rw [hcsi, hcnt3, hcollect, collect_cum, hm1', apply_seeds_cum, hM_cum,
      Nat.zero_add]
  · -- some hub agent exists: the head of the sorted node list is seeded
    have hsortlen : ((((List.range m0.population).map
        (fun n => (n, (m0.adj n).length))).mergeSort
          (fun x y => y.2 ≤ x.2))).length = m0.population := by
      rw [List.length_mergeSort, List.length_map, List.length_range]
    have hpop1 : 1 ≤ m0.population := by
      rw [hM_pop]
      omega
    have hsortne : (((List.range m0.population).map
        (fun n => (n, (m0.adj n).length))).mergeSort
          (fun x y => y.2 ≤ x.2)) ≠ [] := by
      intro hnil
      rw [hnil] at hsortlen
      simp at hsortlen
      omega
    have hns1 : 1 ≤ n_seed_of m0 := by
      rw [n_seed_max]
      omega
    obtain ⟨y, t0, hyt⟩ := List.exists_cons_of_ne_nil hsortne
    obtain ⟨z, t, htake⟩ : ∃ z t, ((((List.range m0.population).map
        (fun n => (n, (m0.adj n).length))).mergeSort
          (fun x y => y.2 ≤ x.2))).take (n_seed_of m0) = z :: t := by
      rw [hyt]
      cases hns : n_seed_of m0 with
      | zero => omega
      | succ k => exact ⟨y, t0.take k, rfl⟩
    have hz_mem : z ∈ (((List.range m0.population).map
        (fun n => (n, (m0.adj n).length))).mergeSort
          (fun x y => y.2 ≤ x.2)) :=
      List.mem_of_mem_take (htake ▸ List.mem_cons_self z t)
    have hz_deg : z ∈ (List.range m0.population).map
        (fun n => (n, (m0.adj n).length)) :=
      ((List.mergeSort_perm _ _).mem_iff).mp hz_mem
    obtain ⟨nid, hnid, hznid⟩ := List.mem_map.mp hz_deg
    have hnlt : nid < m0.population := List.mem_range.mp hnid
    have hnag : nid ∈ m0.agents.map (fun a => a.unique_id) := by
      rw [hM_agents, hids']
      apply List.mem_range.mpr
      rw [hM_pop] at hnlt
      omega
    obtain ⟨a0, ha0, ha0id⟩ := List.mem_map.mp hnag
    have hzfst : z.1 = nid := by rw [← hznid]
    have hcontains : ((((((List.range m0.population).map
        (fun n => (n, (m0.adj n).length))).mergeSort
          (fun x y => y.2 ≤ x.2)).take (n_seed_of m0)).map
        Prod.fst).contains a0.unique_id) = true := by
      apply List.elem_iff.mpr
      rw [ha0id, ← hzfst, htake]
      exact List.mem_map_of_mem Prod.fst (List.mem_cons_self z t)
    have hpos : 0 < m0.agents.countP (fun a =>
        (((((List.range m0.population).map
            (fun n => (n, (m0.adj n).length))).mergeSort
              (fun x y => y.2 ≤ x.2)).take (n_seed_of m0)).map
          Prod.fst).contains a.unique_id) :=
      List.countP_pos_iff.mpr ⟨a0, ha0, hcontains⟩
    rw [hcsi]
    omega

theorem sampleTake_ok : SampleOK sampleTake := by
  intro pool k hnd hk
  refine ⟨?_, ?_, ?_⟩
  · rw [show sampleTake pool k = pool.take k from rfl, List.length_take]
    omega
  · exact hnd.sublist (List.take_sublist ..)
  · intro a ha
    exact List.mem_of_mem_take ha

/-!
## C3 — at least one seed
-/

/-- **C3** (amended).  For every valid configuration under the `random` or
`hub_targeted` seeding policy, at least one agent is in state I before the
first step (a computed seed count of zero is forced up to one, never down
to zero), and each selected agent is set to state I and counted exactly
once toward `cumulative_infected`.  Under `archetype_proportional` this
fails: the per-archetype floor `int(n_seed * static_share)` can allocate
zero seeds in total, leaving no agent infected. -/
theorem seeding_at_least_one (cfg : Config) (adj : ℕ → List ℕ)
    (sample : List Agent → ℕ → List Agent) (stream : ℕ → ℚ) (m : Model)
    (h : mkDisinformationModel cfg adj sample stream = .ok m)
    (hsample : SampleOK sample)
    (hnodup : (cfg.archetype_dist.map Prod.fst).Nodup)
    (hstrat : cfg.seeding_strategy = "random" ∨
      cfg.seeding_strategy = "hub_targeted") :
    1 ≤ count_state m.agents SState.I ∧
    m.cumulative_infected = count_state m.agents SState.I := by
  rcases hstrat with hs | hs
  · obtain ⟨_, hc, h1⟩ := mk_random_count h hsample hs hnodup
    exact ⟨h1, hc⟩
  · obtain ⟨hc, h1⟩ := mk_hub_count h hs hnodup
    exact ⟨h1, hc⟩

/-- Witness for `seeding_at_least_one` at the concrete 2-agent random-policy
model. -/
theorem seeding_at_least_one_witness :
    1 ≤ count_state mSmall.agents SState.I ∧
    mSmall.cumulative_infected = count_state mSmall.agents SState.I :=
  seeding_at_least_one cfgSmall (starAdj 2) sampleTake zeroStream mSmall
    (by with_unfolding_all rfl) sampleTake_ok (by decide) (Or.inl rfl)

/-- **C3** counterexample to the claim as stated: `cfgProp` (population 5,
all agents `moderate`, `archetype_proportional` seeding, computed seed
count forced up to 1) allocates `int(1 × share)` = 0 seeds to every
archetype, so *no* agent is in state I before the first step. -/
theorem archetype_proportional_seeds_nobody :
    (mkDisinformationModel cfgProp (starAdj 5) sampleTake zeroStream).isOk
      = true ∧
    cfgProp.seeding_strategy = "archetype_proportional" ∧
    count_state mProp.agents SState.I = 0 ∧
    mProp.cumulative_infected = 0 := by
  refine ⟨by with_unfolding_all rfl, rfl, by with_unfolding_all rfl,
    by with_unfolding_all rfl⟩

/-!
## C6 — random seeding size
-/

/-- **C6** (amended).  Under the random seeding policy, the initial
infected set consists of exactly `n_seed = max(1, int(population × p₀))`
distinct agents drawn by the engine RNG's `sample` primitive from the
whole population, each counted once toward `cumulative_infected` — with
`int` the *truncation* of `population × p₀`, not its rounding. -/
theorem random_seeding_count (cfg : Config) (adj : ℕ → List ℕ)
    (sample : List Agent → ℕ → List Agent) (stream : ℕ → ℚ) (m : Model)
    (h : mkDisinformationModel cfg adj sample stream = .ok m)
    (hsample : SampleOK sample)
    (hnodup : (cfg.archetype_dist.map Prod.fst).Nodup)
    (hstrat : cfg.seeding_strategy = "random") :
    count_state m.agents SState.I
      = max 1 ((int_trunc ((cfg.population : ℚ) *
          cfg.narrative.initial_seeding)).toNat) ∧
    m.cumulative_infected = count_state m.agents SState.I :=
  ⟨(mk_random_count h hsample hstrat hnodup).1,
   (mk_random_count h hsample hstrat hnodup).2.1⟩

/-- Witness for `random_seeding_count`: population 2, `p₀ = 1/2` seeds
exactly `max(1, int(1)) = 1` agent. -/
theorem random_seeding_count_witness :
    count_state mHalf.agents SState.I
      = max 1 ((int_trunc ((cfgHalf.population : ℚ) *
          cfgHalf.narrative.initial_seeding)).toNat) ∧
    mHalf.cumulative_infected = count_state mHalf.agents SState.I :=
  random_seeding_count cfgHalf (starAdj 2) sampleTake zeroStream mHalf
    (by with_unfolding_all rfl) sampleTake_ok (by decide) rfl

/-- **C6** counterexample to `n_seed = max(1, round(population × p₀))`:
for population 10 and `p₀ = 0.17`, `population × p₀ = 1.7`, whose rounding
is 2, but the code truncates (`int(1.7) = 1`) and seeds exactly one
agent. -/
theorem random_seeding_truncates_not_rounds :
    (mkDisinformationModel cfgRound (starAdj 10) sampleTake zeroStream).isOk
      = true ∧
    cfgRound.seeding_strategy = "random" ∧
    (10 : ℚ) * (17/100) = 17/10 ∧
    max 1 (round ((10 : ℚ) * (17/100))) = 2 ∧
    count_state mRound.agents SState.I = 1 ∧
    mRound.cumulative_infected = 1 := by
  refine ⟨by with_unfolding_all rfl, rfl, by with_unfolding_all rfl, ?_,
    by with_unfolding_all rfl, by with_unfolding_all rfl⟩
  with_unfolding_all decide

end ThesisABM
